import Mathlib

/-!
# Touch-input pipeline of `dfframe.c`

A shallow embedding of the touch pipeline of `src/dfframe/dfframe.c`
(`handleButton`, `handleAxes`, `eventLoop`) together with the parameters of
`src/dfframe/dfframe.h`, and the properties proved about it.

Conventions of the embedding

* The file-scope variables of `dfframe.c` that the pipeline touches, and the
  function-local statics of `handleAxes`, are the fields of `DfState`; every
  function takes the state and returns the new one.
* C `int` is a 32-bit two's-complement integer and `long` / `time_t` an
  `lb`-bit one (`lb` is a parameter: 64 on LP64 Linux, 32 on ILP32).  Values
  are `Int`; each arithmetic operation whose result may leave the range is
  followed by `wrapSigned`, the wrap-around of the target.
* `clock_gettime` is an input: the reading is passed to `handleButton`.
* The array `positions[POSSAMPLES]` is a list of exactly 60 entries.  A store
  through `positions[samples]` outside `0 .. POSSAMPLES-1` has no defined
  behaviour; `handleAxes` returns `none` there.
-/

namespace Dfframe

/-! ## Machine integers -/

/-- Two's-complement wrap-around of `z` into the signed `w`-bit range
`[-2^(w-1), 2^(w-1))`. -/
def wrapSigned (w : Nat) (z : Int) : Int :=
  (z + 2 ^ (w - 1)) % (2 * 2 ^ (w - 1)) - 2 ^ (w - 1)

/-- Wrap-around of a C `int` (32 bits). -/
def wrapInt32 (z : Int) : Int := wrapSigned 32 z

/-- The value `z` is representable in a signed `w`-bit integer. -/
def FitsSigned (w : Nat) (z : Int) : Prop :=
  -(2 ^ (w - 1) : Int) ≤ z ∧ z < 2 ^ (w - 1)

instance (w : Nat) (z : Int) : Decidable (FitsSigned w z) := by
  unfold FitsSigned; infer_instance

/-! ## Types of `dfframe.h` and of the DirectFB event -/

/-- The `position_t` of `dfframe.h`. -/
structure position_t where
  x : Int
  y : Int
  deriving DecidableEq, Repr

/-- The `TouchState` of `dfframe.h`. -/
inductive TouchState where
  | TOUCHED
  | RELEASED
  | ERROR
  deriving DecidableEq, Repr

/-- The `struct timespec` of `time.h`. -/
structure timespec where
  tv_sec : Int
  tv_nsec : Int
  deriving DecidableEq, Repr

/-- The `DFBInputEventType` of DirectFB (the `type` field of an event). -/
inductive DFBInputEventType where
  | DIET_UNKNOWN
  | DIET_KEYPRESS
  | DIET_KEYRELEASE
  | DIET_BUTTONPRESS
  | DIET_BUTTONRELEASE
  | DIET_AXISMOTION
  deriving DecidableEq, Repr

/-- The `DFBInputDeviceAxisIdentifier` of DirectFB: the X, Y and Z axes and
the remaining identifiers, kept by number. -/
inductive DFBInputDeviceAxisIdentifier where
  | DIAI_X
  | DIAI_Y
  | DIAI_Z
  | DIAI_OTHER (n : Nat)
  deriving DecidableEq, Repr

/-- The fields of `DFBInputEvent` that the pipeline reads. -/
structure DFBInputEvent where
  type : DFBInputEventType
  axis : DFBInputDeviceAxisIdentifier
  axisabs : Int
  deriving DecidableEq, Repr

/-! ## Parameters -/

/-- The `POSSAMPLES` of `dfframe.h`. -/
def POSSAMPLES : Int := 60

/-- Calibration constant `CalX1`. -/
def CalX1 : Int := 205
/-- Calibration constant `CalY1`. -/
def CalY1 : Int := 3587
/-- Calibration constant `CalXR`. -/
def CalXR : Int := 3738
/-- Calibration constant `CalYR`. -/
def CalYR : Int := -3371

/-- The chattering interval `ignoreItrvl` of `dfframe.c`, in nanoseconds. -/
def ignoreItrvl : Int := 100000000

/-! ## State -/

/-- The type of the array `positions[POSSAMPLES]`: 60 entries. -/
abbrev Positions : Type := { l : List position_t // l.length = 60 }

/-- The store `positions[i] = p` for an index inside the array. -/
def Positions.store (w : Positions) (i : Nat) (p : position_t) : Positions :=
  ⟨w.1.set i p, by rw [List.length_set]; exact w.2⟩

/-- The variables of `dfframe.c` used by the touch pipeline: the file-scope
`xres`, `yres`, `curpos`, `positions`, `samples`, `positiondet` (the value of
the semaphore), `tstate`, `lastTouch`, and the statics `st`, `x`, `y` of
`handleAxes`. -/
structure DfState where
  xres : Int
  yres : Int
  curpos : position_t
  positions : Positions
  samples : Int
  positiondet : Int
  tstate : TouchState
  lastTouch : timespec
  st : Nat
  x : Int
  y : Int
  deriving DecidableEq, Repr

/-- The state after start-up on a surface of resolution `xres` by `yres`:
the static initialisers of `dfframe.c`, `sem_init(&positiondet, 0, 0)` and
the resolution read by `createPrimarySurface`. -/
def initState (xres yres : Int) : DfState :=
  { xres := xres, yres := yres, curpos := ⟨0, 0⟩,
    positions := ⟨List.replicate 60 ⟨0, 0⟩, rfl⟩, samples := 0, positiondet := 0,
    tstate := TouchState.RELEASED, lastTouch := ⟨0, 0⟩, st := 0, x := 0, y := 0 }

/-! ## `handleButton` -/

/-- The `duration` computed by `handleButton` on a release, in `lb`-bit
`long` arithmetic:
`duration = curtime.tv_nsec - lastTouch.tv_nsec;`
`duration += (curtime.tv_sec - lastTouch.tv_sec) * 1000000000;` -/
def releaseDuration (lb : Nat) (lastTouch curtime : timespec) : Int :=
  let duration := wrapSigned lb (curtime.tv_nsec - lastTouch.tv_nsec)
  wrapSigned lb
    (duration + wrapSigned lb (wrapSigned lb (curtime.tv_sec - lastTouch.tv_sec) * 1000000000))

/-- The `handleButton` of `dfframe.c`; `now` is what `clock_gettime` reads. -/
def handleButton (lb : Nat) (s : DfState) (e : DFBInputEvent) (now : timespec) :
    Bool × DfState :=
  match e.type with
  | DFBInputEventType.DIET_BUTTONPRESS =>
      (true, { s with lastTouch := now, tstate := TouchState.TOUCHED })
  | DFBInputEventType.DIET_BUTTONRELEASE =>
      if ignoreItrvl > releaseDuration lb s.lastTouch now then
        (false, s)
      else
        (true, { s with tstate := TouchState.RELEASED })
  | _ => (false, s)

/-! ## `handleAxes` -/

/-- The summation loop of `handleAxes` over one coordinate:
`acc = 0; for (i = 0; i < POSSAMPLES; i++) acc += positions[i].c;` -/
def sumLoop (c : position_t → Int) (positions : Positions) : Int :=
  (List.range 60).foldl
    (fun acc i => wrapInt32 (acc + c (positions.1.getD i ⟨0, 0⟩))) 0

/-- The expression `(int)(((x - CalX1) * (xres - 1)) / CalXR)`. -/
def calibX (x xres : Int) : Int :=
  Int.tdiv (wrapInt32 (wrapInt32 (x - CalX1) * wrapInt32 (xres - 1))) CalXR

/-- The expression `(int)(((y - CalY1) * (yres - 1)) / CalYR)`. -/
def calibY (y yres : Int) : Int :=
  Int.tdiv (wrapInt32 (wrapInt32 (y - CalY1) * wrapInt32 (yres - 1))) CalYR

/-- The tail of `handleAxes` after the `switch` (the block
`if (st == 3) ...` and the final `return true`). -/
def putPosition (s : DfState) : Option (Bool × DfState) :=
  if s.st = 3 then
    if 0 ≤ s.samples ∧ s.samples < POSSAMPLES then
      let s1 := { s with positions := s.positions.store s.samples.toNat ⟨s.x, s.y⟩,
                         st := 0,
                         samples := s.samples + 1 }
      if s1.samples = POSSAMPLES then
        let x := Int.tdiv (sumLoop position_t.x s1.positions) POSSAMPLES
        let y := Int.tdiv (sumLoop position_t.y s1.positions) POSSAMPLES
        some (true, { s1 with x := x, y := y,
                              curpos := ⟨calibX x s1.xres, calibY y s1.yres⟩,
                              positiondet := s1.positiondet + 1,
                              samples := 0 })
      else
        some (true, s1)
    else
      none
  else
    some (true, s)

/-- The `handleAxes` of `dfframe.c`. -/
def handleAxes (s : DfState) (e : DFBInputEvent) : Option (Bool × DfState) :=
  let s0 := if s.tstate = TouchState.RELEASED then { s with samples := 0 } else s
  if e.type ≠ DFBInputEventType.DIET_AXISMOTION then
    some (false, s0)
  else
    match e.axis with
    | DFBInputDeviceAxisIdentifier.DIAI_X =>
        putPosition { s0 with x := e.axisabs, st := s0.st ||| 1 }
    | DFBInputDeviceAxisIdentifier.DIAI_Y =>
        putPosition { s0 with y := e.axisabs, st := s0.st ||| 2 }
    | _ => some (false, s0)

/-! ## `eventLoop` -/

/-- One turn of the event source: `ev` is the event that `getInputEvent`
stores (`none` when `getInputEvent` returns `false`), `clock` is the reading
`clock_gettime` gives while that event is handled. -/
structure Input where
  ev : Option DFBInputEvent
  clock : timespec
  deriving DecidableEq, Repr

/-- Why an `eventLoop` call left its `while` loop: `getInputEvent` returned
`false`, the `tstate == RELEASED` test, or the `val > 0` test. -/
inductive LoopExit where
  | noEvent
  | released
  | determined
  deriving DecidableEq, Repr

/-- What an `eventLoop` call does on a finite supply of inputs: it returns
`pos` in state `s` with `rest` not yet read; or it is still blocked in
`WaitForEvent` after the supply is used up; or a store went out of the
bounds of `positions`. -/
inductive LoopResult where
  | returned (why : LoopExit) (pos : position_t) (s : DfState) (rest : List Input)
  | waiting (s : DfState)
  | undefined
  deriving DecidableEq, Repr

/-- The `eventLoop` of `dfframe.c`.  The second component is the result; the
first records the state after each call made by the loop body, in order
(`handleButton`, `handleAxes` and, when taken, `sem_wait`). -/
def eventLoop (lb : Nat) (s : DfState) : List Input → List DfState × LoopResult
  | [] => ([], LoopResult.waiting s)
  | i :: rest =>
    match i.ev with
    | none => ([], LoopResult.returned LoopExit.noEvent s.curpos s rest)
    | some e =>
      let s1 := (handleButton lb s e i.clock).2
      match handleAxes s1 e with
      | none => ([s1], LoopResult.undefined)
      | some r =>
        let s2 := r.2
        if s2.tstate = TouchState.RELEASED then
          ([s1, s2], LoopResult.returned LoopExit.released s2.curpos s2 rest)
        else if 0 < s2.positiondet then
          let s3 := { s2 with positiondet := s2.positiondet - 1 }
          ([s1, s2, s3], LoopResult.returned LoopExit.determined s3.curpos s3 rest)
        else
          let r := eventLoop lb s2 rest
          (s1 :: s2 :: r.1, r.2)

/-- The pipeline driven as `main` drives it: `n` successive `eventLoop`
calls, each reading on from where the previous one stopped.  The result is
the record of the states passed through and the list of the states in which
the calls returned. -/
def eventLoopCalls (lb : Nat) : Nat → DfState → List Input → List DfState × List DfState
  | 0, _, _ => ([], [])
  | n + 1, s, stream =>
    match eventLoop lb s stream with
    | (log, LoopResult.returned _ _ s1 rest) =>
        let r := eventLoopCalls lb n s1 rest
        (log ++ r.1, s1 :: r.2)
    | (log, _) => (log, [])

/-! ## Runs of single calls -/

/-- Feeds the events to `handleAxes` one after the other and lists the state
after each call; `none` when a call has no defined behaviour. -/
def runAxes (s : DfState) : List DFBInputEvent → Option (List DfState)
  | [] => some []
  | e :: es =>
    match handleAxes s e with
    | none => none
    | some r =>
      match runAxes r.2 es with
      | none => none
      | some tr => some (r.2 :: tr)

/-- An X-axis motion event carrying `v`. -/
def evX (v : Int) : DFBInputEvent :=
  ⟨DFBInputEventType.DIET_AXISMOTION, DFBInputDeviceAxisIdentifier.DIAI_X, v⟩

/-- A Y-axis motion event carrying `v`. -/
def evY (v : Int) : DFBInputEvent :=
  ⟨DFBInputEventType.DIET_AXISMOTION, DFBInputDeviceAxisIdentifier.DIAI_Y, v⟩

/-- A button-press event. -/
def evPress : DFBInputEvent :=
  ⟨DFBInputEventType.DIET_BUTTONPRESS, DFBInputDeviceAxisIdentifier.DIAI_X, 0⟩

/-- A button-release event. -/
def evRelease : DFBInputEvent :=
  ⟨DFBInputEventType.DIET_BUTTONRELEASE, DFBInputDeviceAxisIdentifier.DIAI_X, 0⟩

/-! ## Reference definitions and named states -/

/-- The mean of the spec: the sum of the readings divided by 60, truncating. -/
def specMean (vs : List Int) : Int := Int.tdiv vs.sum 60

/-- The `screenX` of the spec in exact integers. -/
def specScreenX (meanX xres : Int) : Int := Int.tdiv ((meanX - 205) * (xres - 1)) 3738

/-- The `screenY` of the spec in exact integers. -/
def specScreenY (meanY yres : Int) : Int := Int.tdiv ((meanY - 3587) * (yres - 1)) (-3371)

/-- The two axis events of one sample `p`: X then Y when `xFirst`, Y then X
otherwise. -/
def pairEvents (xFirst : Bool) (p : position_t) : List DFBInputEvent :=
  if xFirst then [evX p.x, evY p.y] else [evY p.y, evX p.x]

/-- The axis events of a list of samples, pair after pair. -/
def pairsEvents : List (Bool × position_t) → List DFBInputEvent
  | [] => []
  | q :: qs => pairEvents q.1 q.2 ++ pairsEvents qs

/-- The state in which `handleAxes` returns after it has stored the sample
`p` in a window that this does not fill. -/
def stored (s : DfState) (p : position_t) : DfState :=
  { s with x := p.x, y := p.y, positions := s.positions.store s.samples.toNat p, st := 0,
           samples := s.samples + 1 }

/-- The state in which `handleAxes` returns after it has averaged the window
`w` on resolution taken from `s`. -/
def averaged (s : DfState) (w : Positions) : DfState :=
  { s with
    positions := w
    st := 0
    samples := 0
    x := Int.tdiv (sumLoop position_t.x w) 60
    y := Int.tdiv (sumLoop position_t.y w) 60
    curpos := ⟨calibX (Int.tdiv (sumLoop position_t.x w) 60) s.xres,
               calibY (Int.tdiv (sumLoop position_t.y w) 60) s.yres⟩
    positiondet := s.positiondet + 1 }

/-- No 32-bit operation of the averaging of the window `w` and of the
calibration on resolution `xres` by `yres` leaves the range of `int`: the
two sums, the differences `mean - 205`, `mean - 3587`, `xres - 1`,
`yres - 1` and the two products are representable. -/
def CalibFits (w : List position_t) (xres yres : Int) : Prop :=
  FitsSigned 32 (w.map position_t.x).sum ∧
  FitsSigned 32 (w.map position_t.y).sum ∧
  FitsSigned 32 (specMean (w.map position_t.x) - 205) ∧
  FitsSigned 32 (xres - 1) ∧
  FitsSigned 32 ((specMean (w.map position_t.x) - 205) * (xres - 1)) ∧
  FitsSigned 32 (specMean (w.map position_t.y) - 3587) ∧
  FitsSigned 32 (yres - 1) ∧
  FitsSigned 32 ((specMean (w.map position_t.y) - 3587) * (yres - 1))

instance (w : List position_t) (xres yres : Int) : Decidable (CalibFits w xres yres) := by
  unfold CalibFits; infer_instance

/-- The inputs that deliver the events `evs`, each handled at clock reading
`clk`. -/
def inputsOf (clk : timespec) (evs : List DFBInputEvent) : List Input :=
  evs.map (fun e => ⟨some e, clk⟩)

/-- The state before the last Y event of a window whose 59 stored samples
and pending X reading are all 2000, on an 800 by 480 surface. -/
def lastCallState : DfState :=
  { initState 800 480 with
    tstate := TouchState.TOUCHED
    positions := ⟨List.replicate 60 ⟨2000, 2000⟩, rfl⟩
    samples := 59
    st := 1
    x := 2000 }

/-- The position an `eventLoop` call returns, when it returns. -/
def LoopResult.pos? : LoopResult → Option position_t
  | LoopResult.returned _ p _ _ => some p
  | _ => none

/-- One call made on the pipeline: `handleButton` on an event at a clock
reading, or `handleAxes` on an event. -/
inductive Call where
  | button (e : DFBInputEvent) (now : timespec)
  | axes (e : DFBInputEvent)
  deriving DecidableEq, Repr

/-- Makes the calls one after the other and lists the state on return from
each; `none` when a call has no defined behaviour. -/
def runCalls (lb : Nat) (s : DfState) : List Call → Option (List DfState)
  | [] => some []
  | Call.button e now :: cs =>
    match runCalls lb (handleButton lb s e now).2 cs with
    | none => none
    | some tr => some ((handleButton lb s e now).2 :: tr)
  | Call.axes e :: cs =>
    match handleAxes s e with
    | none => none
    | some r =>
      match runCalls lb r.2 cs with
      | none => none
      | some tr => some (r.2 :: tr)

/-- The window length that `handleAxes` works with after its touch-off
synchronisation: 0 while the touch state is `RELEASED`, `samples`
otherwise. -/
def syncedSamples (s : DfState) : Int :=
  if s.tstate = TouchState.RELEASED then 0 else s.samples

/-- The call `handleAxes s e` stores the sample that brings the window
length to 60: the pipeline is not released, 59 samples are in the window, and
`e` is an X or Y axis-motion event after which the bitmask is 3. -/
def CompletesWindow (s : DfState) (e : DFBInputEvent) : Prop :=
  s.tstate ≠ TouchState.RELEASED ∧ s.samples = 59 ∧
  e.type = DFBInputEventType.DIET_AXISMOTION ∧
  ((e.axis = DFBInputDeviceAxisIdentifier.DIAI_X ∧ s.st ||| 1 = 3) ∨
   (e.axis = DFBInputDeviceAxisIdentifier.DIAI_Y ∧ s.st ||| 2 = 3))

instance (s : DfState) (e : DFBInputEvent) : Decidable (CompletesWindow s e) := by
  unfold CompletesWindow; infer_instance

/-- The start-up state after an X event carrying `x0` and a Y event carrying
`y0` have been handled while the pipeline is released. -/
def leakedState (xres yres x0 y0 : Int) : DfState :=
  { initState xres yres with
    x := x0
    y := y0
    positions := (initState xres yres).positions.store 0 ⟨x0, y0⟩
    samples := 1 }

/-- A touched pipeline on an 800 by 480 surface with an empty window and a
pending Y reading of 7. -/
def pendingYState : DfState :=
  { initState 800 480 with tstate := TouchState.TOUCHED, st := 2, y := 7 }

/-- The state `pendingYState` after an X event carrying 5 has stored the
sample (5, 7). -/
def committedState : DfState :=
  { initState 800 480 with
    tstate := TouchState.TOUCHED
    x := 5
    y := 7
    samples := 1
    positions := (initState 800 480).positions.store 0 ⟨5, 7⟩ }

theorem wrapSigned_modEq (w : Nat) (z : Int) :
    Int.ModEq (2 * 2 ^ (w - 1)) (wrapSigned w z) z := by
  unfold wrapSigned
  have h : Int.ModEq (2 * 2 ^ (w - 1)) ((z + 2 ^ (w - 1)) % (2 * 2 ^ (w - 1))) (z + 2 ^ (w - 1)) :=
    Int.mod_modEq _ _
  have h2 := h.sub_right (2 ^ (w - 1))
  simpa using h2

theorem wrapSigned_of_fits {w : Nat} {z : Int} (h : FitsSigned w z) : wrapSigned w z = z := by
  unfold wrapSigned
  obtain ⟨h1, h2⟩ := h
  have hp : (0 : Int) < 2 ^ (w - 1) := by positivity
  rw [Int.emod_eq_of_lt (by linarith) (by linarith)]
  ring

theorem wrapSigned_congr {w : Nat} {a b : Int}
    (h : Int.ModEq (2 * 2 ^ (w - 1)) a b) : wrapSigned w a = wrapSigned w b := by
  unfold wrapSigned
  have h2 : (a + 2 ^ (w - 1)) % (2 * 2 ^ (w - 1)) = (b + 2 ^ (w - 1)) % (2 * 2 ^ (w - 1)) :=
    h.add_right _
  rw [h2]

theorem wrapSigned_fits (w : Nat) (z : Int) : FitsSigned w (wrapSigned w z) := by
  unfold wrapSigned FitsSigned
  have hp : (0 : Int) < 2 ^ (w - 1) := by positivity
  have hm : (0 : Int) < 2 * 2 ^ (w - 1) := by linarith
  have h1 := Int.emod_nonneg (z + 2 ^ (w - 1)) (ne_of_gt hm)
  have h2 := Int.emod_lt_of_pos (z + 2 ^ (w - 1)) hm
  constructor <;> linarith

/-- C2: on a button-press event, whatever the state before, `handleButton`
stores the clock reading as the last-press time, sets the touch state to
`TOUCHED`, returns `true`, and changes nothing else. -/
theorem handleButton_press (lb : Nat) (s : DfState) (e : DFBInputEvent) (now : timespec)
    (he : e.type = DFBInputEventType.DIET_BUTTONPRESS) :
    (handleButton lb s e now).1 = true ∧
    (handleButton lb s e now).2.lastTouch = now ∧
    (handleButton lb s e now).2.tstate = TouchState.TOUCHED ∧
    (handleButton lb s e now).2 = { s with lastTouch := now, tstate := TouchState.TOUCHED } := by
  simp [handleButton, he]

/-- Witness of C2: a press at time (5 s, 7 ns) in the start-up state. -/
theorem handleButton_press_witness :
    (handleButton 64 (initState 800 480) evPress ⟨5, 7⟩).1 = true ∧
    (handleButton 64 (initState 800 480) evPress ⟨5, 7⟩).2.lastTouch = ⟨5, 7⟩ ∧
    (handleButton 64 (initState 800 480) evPress ⟨5, 7⟩).2.tstate = TouchState.TOUCHED ∧
    (handleButton 64 (initState 800 480) evPress ⟨5, 7⟩).2
      = { initState 800 480 with lastTouch := ⟨5, 7⟩, tstate := TouchState.TOUCHED } :=
  handleButton_press 64 (initState 800 480) evPress ⟨5, 7⟩ rfl

/-- C3: on an event that is neither a button press nor a button release,
`handleButton` returns `false` and returns the state it was given, every
field unchanged. -/
theorem handleButton_other (lb : Nat) (s : DfState) (e : DFBInputEvent) (now : timespec)
    (hp : e.type ≠ DFBInputEventType.DIET_BUTTONPRESS)
    (hr : e.type ≠ DFBInputEventType.DIET_BUTTONRELEASE) :
    handleButton lb s e now = (false, s) := by
  unfold handleButton
  split <;> simp_all

/-- Witness of C3: an X-axis motion event in the start-up state. -/
theorem handleButton_other_witness :
    handleButton 64 (initState 800 480) (evX 2000) ⟨5, 7⟩ = (false, initState 800 480) :=
  handleButton_other 64 (initState 800 480) (evX 2000) ⟨5, 7⟩ (by decide) (by decide)
/-! ## The summation loop and the calibration expressions -/

theorem take_succ_sum (c : position_t → Int) (w : List position_t) (n : Nat) (h : n < w.length) :
    ((w.take (n + 1)).map c).sum = ((w.take n).map c).sum + c (w.getD n ⟨0, 0⟩) := by
  rw [List.take_succ, List.map_append, List.sum_append]
  simp [List.getD, List.getElem?_eq_getElem h]

theorem foldl_range_modEq (c : position_t → Int) (w : List position_t) (n : Nat)
    (h : n ≤ w.length) :
    Int.ModEq (2 * 2 ^ (32 - 1))
      ((List.range n).foldl (fun acc i => wrapInt32 (acc + c (w.getD i ⟨0, 0⟩))) 0)
      ((w.take n).map c).sum := by
  induction n with
  | zero => simp [Int.ModEq]
  | succ n ih =>
    rw [List.range_succ, List.foldl_append, take_succ_sum c w n (by omega)]
    simp only [List.foldl_cons, List.foldl_nil]
    exact (wrapSigned_modEq 32 _).trans ((ih (by omega)).add_right _)

theorem foldl_range_fits (c : position_t → Int) (w : List position_t) (n : Nat) :
    FitsSigned 32
      ((List.range n).foldl (fun acc i => wrapInt32 (acc + c (w.getD i ⟨0, 0⟩))) 0) := by
  cases n with
  | zero => simp [FitsSigned]
  | succ n =>
    rw [List.range_succ, List.foldl_append]
    simp only [List.foldl_cons, List.foldl_nil]
    exact wrapSigned_fits 32 _

theorem sumLoop_eq_wrap (c : position_t → Int) (w : Positions) :
    sumLoop c w = wrapInt32 (w.1.map c).sum := by
  unfold sumLoop
  have h1 := wrapSigned_congr (foldl_range_modEq c w.1 60 (by rw [w.2]))
  rw [wrapSigned_of_fits (foldl_range_fits c w.1 60)] at h1
  rw [h1, List.take_of_length_le (by rw [w.2])]
  rfl

theorem sumLoop_of_fits (c : position_t → Int) (w : Positions)
    (hf : FitsSigned 32 (w.1.map c).sum) : sumLoop c w = (w.1.map c).sum := by
  rw [sumLoop_eq_wrap c w]
  exact wrapSigned_of_fits hf

theorem calibX_of_fits (x xres : Int) (h1 : FitsSigned 32 (x - 205))
    (h2 : FitsSigned 32 (xres - 1)) (h3 : FitsSigned 32 ((x - 205) * (xres - 1))) :
    calibX x xres = specScreenX x xres := by
  unfold calibX specScreenX CalX1 CalXR wrapInt32
  rw [wrapSigned_of_fits h1, wrapSigned_of_fits h2, wrapSigned_of_fits h3]

theorem calibY_of_fits (y yres : Int) (h1 : FitsSigned 32 (y - 3587))
    (h2 : FitsSigned 32 (yres - 1)) (h3 : FitsSigned 32 ((y - 3587) * (yres - 1))) :
    calibY y yres = specScreenY y yres := by
  unfold calibY specScreenY CalY1 CalYR wrapInt32
  rw [wrapSigned_of_fits h1, wrapSigned_of_fits h2, wrapSigned_of_fits h3]

/-! ## Single axis events on a pipeline that is not released -/

theorem handleAxes_evX_first (s : DfState) (v : Int) (ht : s.tstate ≠ TouchState.RELEASED)
    (hst : s.st = 0) :
    handleAxes s (evX v) = some (true, { s with x := v, st := 1 }) := by
  simp [handleAxes, evX, ht, putPosition, hst]

theorem handleAxes_evY_first (s : DfState) (v : Int) (ht : s.tstate ≠ TouchState.RELEASED)
    (hst : s.st = 0) :
    handleAxes s (evY v) = some (true, { s with y := v, st := 2 }) := by
  simp [handleAxes, evY, ht, putPosition, hst]

theorem handleAxes_evX_store (s : DfState) (v : Int) (ht : s.tstate ≠ TouchState.RELEASED)
    (hst : s.st = 2) (h0 : 0 ≤ s.samples) (hs : s.samples < 59) :
    handleAxes s (evX v) = some (true,
      { s with x := v, positions := s.positions.store s.samples.toNat ⟨v, s.y⟩, st := 0,
               samples := s.samples + 1 }) := by
  have h1 : s.samples < POSSAMPLES := by unfold POSSAMPLES; omega
  have h2 : ¬ (s.samples + 1 = POSSAMPLES) := by unfold POSSAMPLES; omega
  simp [handleAxes, evX, ht, putPosition, hst, h0, h1, h2]

theorem handleAxes_evY_store (s : DfState) (v : Int) (ht : s.tstate ≠ TouchState.RELEASED)
    (hst : s.st = 1) (h0 : 0 ≤ s.samples) (hs : s.samples < 59) :
    handleAxes s (evY v) = some (true,
      { s with y := v, positions := s.positions.store s.samples.toNat ⟨s.x, v⟩, st := 0,
               samples := s.samples + 1 }) := by
  have h1 : s.samples < POSSAMPLES := by unfold POSSAMPLES; omega
  have h2 : ¬ (s.samples + 1 = POSSAMPLES) := by unfold POSSAMPLES; omega
  simp [handleAxes, evY, ht, putPosition, hst, h0, h1, h2]

theorem handleAxes_evX_full (s : DfState) (v : Int) (ht : s.tstate ≠ TouchState.RELEASED)
    (hst : s.st = 2) (hs : s.samples = 59) :
    handleAxes s (evX v) = some (true, averaged s (s.positions.store 59 ⟨v, s.y⟩)) := by
  simp [handleAxes, evX, ht, putPosition, hst, hs, POSSAMPLES, averaged]

theorem handleAxes_evY_full (s : DfState) (v : Int) (ht : s.tstate ≠ TouchState.RELEASED)
    (hst : s.st = 1) (hs : s.samples = 59) :
    handleAxes s (evY v) = some (true, averaged s (s.positions.store 59 ⟨s.x, v⟩)) := by
  simp [handleAxes, evY, ht, putPosition, hst, hs, POSSAMPLES, averaged]

/-- One pair of axis events, in either order, on a window that it does not
fill: the first event changes neither the window nor the semaphore, the
second stores the sample. -/
theorem runAxes_pair_store (s : DfState) (b : Bool) (p : position_t)
    (ht : s.tstate ≠ TouchState.RELEASED) (hst : s.st = 0)
    (h0 : 0 ≤ s.samples) (hs : s.samples < 59) :
    ∃ m, handleAxes s ((pairEvents b p).headD (evX 0)) = some (true, m) ∧
      handleAxes m ((pairEvents b p).getLastD (evX 0)) = some (true, stored s p) ∧
      m.samples = s.samples ∧ m.positiondet = s.positiondet ∧ m.tstate = s.tstate ∧
      m.curpos = s.curpos := by
  cases b
  · refine ⟨{ s with y := p.y, st := 2 }, ?_, ?_, rfl, rfl, rfl, rfl⟩
    · simpa [pairEvents] using handleAxes_evY_first s p.y ht hst
    · simpa [pairEvents, stored] using
        handleAxes_evX_store { s with y := p.y, st := 2 } p.x ht rfl h0 hs
  · refine ⟨{ s with x := p.x, st := 1 }, ?_, ?_, rfl, rfl, rfl, rfl⟩
    · simpa [pairEvents] using handleAxes_evX_first s p.x ht hst
    · simpa [pairEvents, stored] using
        handleAxes_evY_store { s with x := p.x, st := 1 } p.y ht rfl h0 hs

/-- One pair of axis events, in either order, that fills the window: the
first event changes neither the window nor the semaphore, the second stores
the sample at index 59 and averages. -/
theorem runAxes_pair_full (s : DfState) (b : Bool) (p : position_t)
    (ht : s.tstate ≠ TouchState.RELEASED) (hst : s.st = 0) (hs : s.samples = 59) :
    ∃ m, handleAxes s ((pairEvents b p).headD (evX 0)) = some (true, m) ∧
      handleAxes m ((pairEvents b p).getLastD (evX 0)) = some (true,
        averaged s (s.positions.store 59 p)) ∧
      m.samples = s.samples ∧ m.positiondet = s.positiondet ∧ m.tstate = s.tstate ∧
      m.curpos = s.curpos := by
  cases b
  · refine ⟨{ s with y := p.y, st := 2 }, ?_, ?_, rfl, rfl, rfl, rfl⟩
    · simpa [pairEvents] using handleAxes_evY_first s p.y ht hst
    · simpa [pairEvents] using
        handleAxes_evX_full { s with y := p.y, st := 2 } p.x ht rfl hs
  · refine ⟨{ s with x := p.x, st := 1 }, ?_, ?_, rfl, rfl, rfl, rfl⟩
    · simpa [pairEvents] using handleAxes_evX_first s p.x ht hst
    · simpa [pairEvents] using
        handleAxes_evY_full { s with x := p.x, st := 1 } p.y ht rfl hs

/-! ## Runs of paired axis events -/

theorem pairEvents_eq (b : Bool) (p : position_t) :
    pairEvents b p = [(pairEvents b p).headD (evX 0), (pairEvents b p).getLastD (evX 0)] := by
  cases b <;> rfl

theorem runAxes_two (s m t : DfState) (e1 e2 : DFBInputEvent) (rest : List DFBInputEvent)
    (h1 : handleAxes s e1 = some (true, m)) (h2 : handleAxes m e2 = some (true, t)) :
    runAxes s (e1 :: e2 :: rest) = (runAxes t rest).map (fun tr => m :: t :: tr) := by
  simp only [runAxes, h1, h2]
  cases runAxes t rest <;> rfl

theorem set_take_succ (l : List position_t) (n : Nat) (p : position_t) (h : n < l.length) :
    (l.set n p).take (n + 1) = l.take n ++ [p] := by
  rw [List.set_eq_take_cons_drop p h, List.take_append_eq_append_take]
  simp [List.length_take, Nat.min_eq_left (Nat.le_of_lt h)]

theorem set_last (l : List position_t) (n : Nat) (p : position_t) (h : l.length = n + 1) :
    l.set n p = l.take n ++ [p] := by
  rw [List.set_eq_take_cons_drop p (by omega), List.drop_of_length_le (by omega)]

theorem range_map_shift (f : Nat → Int) (k : Nat) :
    (List.range (k + 2)).map f = f 0 :: f 1 :: (List.range k).map (fun i => f (i + 2)) := by
  rw [List.range_succ_eq_map, List.range_succ_eq_map]
  simp [List.map_map, Function.comp]

theorem averaged_congr (s t : DfState) (w : Positions)
    (h1 : t.xres = s.xres) (h2 : t.yres = s.yres) (h3 : t.positiondet = s.positiondet)
    (h4 : t.tstate = s.tstate) (h5 : t.lastTouch = s.lastTouch) :
    averaged t w = averaged s w := by
  simp [averaged, h1, h2, h3, h4, h5]

/-- Runs of `handleAxes` over a non-empty list of pairs that ends exactly
when the window is full: the window lengths and the semaphore values after
each call, and the state after the last one. -/
theorem runAxes_pairs (qs : List (Bool × position_t)) :
    ∀ (q : Bool × position_t) (s : DfState) (n : Nat),
      s.tstate ≠ TouchState.RELEASED → s.st = 0 → s.samples = n →
      n + qs.length = 59 →
      ∃ tr last, runAxes s (pairsEvents (q :: qs)) = some tr ∧
        tr.map DfState.samples
          = (List.range (2 * qs.length + 1)).map (fun i => ((n + (i + 1) / 2 : Nat) : Int))
              ++ [0] ∧
        tr.map DfState.positiondet
          = List.replicate (2 * qs.length + 1) s.positiondet ++ [s.positiondet + 1] ∧
        (∀ t ∈ tr, t.tstate = s.tstate) ∧
        tr.getLast? = some last ∧
        last = averaged s last.positions ∧
        last.positions.1 = s.positions.1.take n ++ (q :: qs).map Prod.snd := by
  induction qs with
  | nil =>
    intro q s n ht hst hs hn
    simp only [List.length_nil, Nat.add_zero] at hn
    subst hn
    obtain ⟨m, hm1, hm2, hm3, hm4, hm5, _⟩ := runAxes_pair_full s q.1 q.2 ht hst hs
    refine ⟨[m, averaged s (s.positions.store 59 q.2)], averaged s (s.positions.store 59 q.2),
      ?_, ?_, ?_, ?_, rfl, rfl, ?_⟩
    · simp only [pairsEvents, List.append_nil]
      rw [pairEvents_eq, runAxes_two s m _ _ _ [] hm1 hm2]
      rfl
    · simp only [List.map_cons, List.map_nil, hm3, hs, List.length_nil]
      rfl
    · simp [hm4, averaged]
    · intro t htm
      simp only [List.mem_cons, List.mem_singleton, List.not_mem_nil, or_false] at htm
      rcases htm with h | h
      · rw [h]; exact hm5
      · rw [h]; simp only [averaged]
    · exact set_last s.positions.1 59 q.2 s.positions.2
  | cons q2 qs ih =>
    intro q s n ht hst hs hn
    simp only [List.length_cons] at hn
    have h0 : 0 ≤ s.samples := by rw [hs]; exact Int.ofNat_nonneg n
    have h59 : s.samples < 59 := by rw [hs]; omega
    obtain ⟨m, hm1, hm2, hm3, hm4, hm5, _⟩ := runAxes_pair_store s q.1 q.2 ht hst h0 h59
    have hnat : s.samples.toNat = n := by rw [hs]; rfl
    have hpos : (stored s q.2).positions.1 = s.positions.1.set n q.2 := by
      simp only [stored, Positions.store, hnat]
    obtain ⟨tr, last, htr1, htr2, htr3, htr4, htr5, htr6, htr7⟩ :=
      ih q2 (stored s q.2) (n + 1) ht rfl (by simp [stored, hs]) (by omega)
    have hdet : (stored s q.2).positiondet = s.positiondet := rfl
    have htst : (stored s q.2).tstate = s.tstate := rfl
    rw [hdet] at htr3
    rw [htst] at htr4
    rw [averaged_congr s (stored s q.2) _ rfl rfl rfl rfl rfl] at htr6
    rw [hpos] at htr7
    refine ⟨m :: stored s q.2 :: tr, last, ?_, ?_, ?_, ?_, ?_, htr6, ?_⟩
    · have : pairsEvents (q :: q2 :: qs)
          = (pairEvents q.1 q.2).headD (evX 0) :: (pairEvents q.1 q.2).getLastD (evX 0)
              :: pairsEvents (q2 :: qs) := by
        conv_lhs => rw [pairsEvents, pairEvents_eq]
        rfl
      rw [this, runAxes_two s m _ _ _ _ hm1 hm2, htr1]
      rfl
    · have hsam : (stored s q.2).samples = s.samples + 1 := rfl
      have e : 2 * (q2 :: qs).length + 1 = (2 * qs.length + 1) + 2 := by
        simp only [List.length_cons]; ring
      rw [e, range_map_shift]
      simp only [List.map_cons, htr2, hm3, hs, hsam, List.cons_append]
      refine congrArg₂ _ ?_ (congrArg₂ _ ?_ (congrArg₂ _ ?_ rfl))
      · simp
      · simp
      · apply List.map_congr_left
        intro i _
        congr 1
        omega
    · simp only [List.map_cons, htr3, List.length_cons, hm4]
      have e : 2 * (qs.length + 1) + 1 = (2 * qs.length + 1) + 1 + 1 := by ring
      rw [e, List.replicate_succ, List.replicate_succ]
      rfl
    · intro t htm
      simp only [List.mem_cons] at htm
      rcases htm with rfl | rfl | h
      · exact hm5
      · rfl
      · exact htr4 t h
    · rw [List.getLast?_cons_cons]
      have hne : tr ≠ [] := by
        intro h
        rw [h] at htr5
        simp at htr5
      obtain ⟨a, l, rfl⟩ := List.exists_cons_of_ne_nil hne
      rw [List.getLast?_cons_cons, htr5]
    · rw [htr7, set_take_succ s.positions.1 n q.2 (by rw [s.positions.2]; omega)]
      simp only [List.map_cons, List.append_assoc, List.singleton_append]

/-! ## Averaging and calibration -/

theorem averaged_curpos_of_fits (s : DfState) (w : Positions)
    (hf : CalibFits w.1 s.xres s.yres) :
    (averaged s w).curpos =
      ⟨specScreenX (specMean (w.1.map position_t.x)) s.xres,
       specScreenY (specMean (w.1.map position_t.y)) s.yres⟩ := by
  obtain ⟨h1, h2, h3, h4, h5, h6, h7, h8⟩ := hf
  simp only [averaged]
  rw [sumLoop_of_fits _ w h1, sumLoop_of_fits _ w h2]
  have e1 : Int.tdiv (w.1.map position_t.x).sum 60 = specMean (w.1.map position_t.x) := rfl
  have e2 : Int.tdiv (w.1.map position_t.y).sum 60 = specMean (w.1.map position_t.y) := rfl
  rw [e1, e2, calibX_of_fits _ _ h3 h4 h5, calibY_of_fits _ _ h6 h7 h8]

/-- C4 (as amended): in the `handleAxes` call that stores the 60th sample
`p` (window length 59 on entry, pipeline not released, the event completing
the pair), when no 32-bit operation wraps (`CalibFits`), the calibrated
position becomes `screenX = ((mx - 205) * (xres - 1)) / 3738` and
`screenY = ((my - 3587) * (yres - 1)) / (-3371)`, with `mx`, `my` the sums of
the 60 window entries divided by 60, every division truncating. -/
theorem handleAxes_calibrates (s : DfState) (e : DFBInputEvent) (p : position_t)
    (ht : s.tstate ≠ TouchState.RELEASED) (hs : s.samples = 59)
    (hty : e.type = DFBInputEventType.DIET_AXISMOTION)
    (hp : (e.axis = DFBInputDeviceAxisIdentifier.DIAI_X ∧ s.st ||| 1 = 3 ∧
            p = ⟨e.axisabs, s.y⟩) ∨
          (e.axis = DFBInputDeviceAxisIdentifier.DIAI_Y ∧ s.st ||| 2 = 3 ∧
            p = ⟨s.x, e.axisabs⟩))
    (hf : CalibFits (s.positions.store 59 p).1 s.xres s.yres) :
    ∃ t, handleAxes s e = some (true, t) ∧
      t.positions = s.positions.store 59 p ∧
      t.curpos =
        ⟨specScreenX (specMean ((s.positions.store 59 p).1.map position_t.x)) s.xres,
         specScreenY (specMean ((s.positions.store 59 p).1.map position_t.y)) s.yres⟩ := by
  refine ⟨averaged s (s.positions.store 59 p), ?_, rfl, averaged_curpos_of_fits s _ hf⟩
  rcases hp with ⟨hax, hst, rfl⟩ | ⟨hax, hst, rfl⟩
  · simp [handleAxes, ht, hty, hax, putPosition, hst, hs, POSSAMPLES, averaged]
  · simp [handleAxes, ht, hty, hax, putPosition, hst, hs, POSSAMPLES, averaged]

/-- Witness of C4: the call that stores the 60th sample (2000, 2000). -/
theorem handleAxes_calibrates_witness :
    ∃ t, handleAxes lastCallState (evY 2000) = some (true, t) ∧
      t.positions = lastCallState.positions.store 59 ⟨2000, 2000⟩ ∧
      t.curpos =
        ⟨specScreenX
            (specMean ((lastCallState.positions.store 59 ⟨2000, 2000⟩).1.map position_t.x))
            lastCallState.xres,
         specScreenY
            (specMean ((lastCallState.positions.store 59 ⟨2000, 2000⟩).1.map position_t.y))
            lastCallState.yres⟩ :=
  handleAxes_calibrates lastCallState (evY 2000) ⟨2000, 2000⟩ (by decide) rfl rfl
    (Or.inr ⟨rfl, by decide, rfl⟩) (by decide)

set_option maxRecDepth 100000 in
/-- Counterexample to C4 as stated: on an 800 by 480 surface, after 60 pairs
of readings (36000000, 2000) on a touched pipeline with an empty window the
call that stores the 60th sample leaves `screenX = 437121`, while the formula
in exact integers gives 7694980: the 32-bit sum of the X readings wraps. -/
theorem handleAxes_calibrates_overflow :
    ((runAxes { initState 800 480 with tstate := TouchState.TOUCHED }
        (pairsEvents (List.replicate 60 (true, ⟨36000000, 2000⟩)))).bind
      List.getLast?).map DfState.curpos = some ⟨437121, 225⟩ ∧
    specScreenX (specMean (List.replicate 60 36000000)) 800 = 7694980 ∧
    specScreenY (specMean (List.replicate 60 2000)) 480 = 225 := by
  decide
/-! ## Sixty pairs on an empty window -/

/-- C6: on a touched pipeline with an empty window and a clear bitmask, for
every 60 samples each delivered as one X and one Y event in either order,
the 120 `handleAxes` calls all return; the window length is `k` after the
first event of pair `k` (nothing stored) and `k + 1` after its second event,
except after the very last event where it is back at 0; the semaphore keeps
its value through the first 119 calls and is one higher after the last; and
the window averaged by the last call is exactly the 60 samples. -/
theorem runAxes_sixty_pairs (s : DfState) (ps : List (Bool × position_t))
    (ht : s.tstate = TouchState.TOUCHED) (hs : s.samples = 0) (hst : s.st = 0)
    (hp : ps.length = 60) :
    ∃ tr last, runAxes s (pairsEvents ps) = some tr ∧ tr.length = 120 ∧
      tr.map DfState.samples
        = (List.range 119).map (fun i => (((i + 1) / 2 : Nat) : Int)) ++ [0] ∧
      tr.map DfState.positiondet
        = List.replicate 119 s.positiondet ++ [s.positiondet + 1] ∧
      tr.getLast? = some last ∧ last.samples = 0 ∧
      last.positions.1 = ps.map Prod.snd := by
  obtain ⟨q, qs, rfl⟩ := List.exists_cons_of_ne_nil
    (l := ps) (by intro h; rw [h] at hp; simp at hp)
  have hq : qs.length = 59 := by simpa using hp
  have ht2 : s.tstate ≠ TouchState.RELEASED := by rw [ht]; decide
  obtain ⟨tr, last, h1, h2, h3, _, h5, h6, h7⟩ :=
    runAxes_pairs qs q s 0 ht2 hst hs (by omega)
  refine ⟨tr, last, h1, ?_, ?_, ?_, h5, ?_, ?_⟩
  · have := congrArg List.length h3
    simpa [hq] using this
  · rw [h2, hq]
    simp
  · rw [h3, hq]
  · rw [h6]; rfl
  · rw [h7]; simp

/-- Witness of C6: sixty samples (2000, 2000), X event first, on the
start-up state after a press. -/
theorem runAxes_sixty_pairs_witness :
    ∃ tr last, runAxes { initState 800 480 with tstate := TouchState.TOUCHED }
        (pairsEvents (List.replicate 60 (true, ⟨2000, 2000⟩))) = some tr ∧
      tr.length = 120 ∧
      tr.map DfState.samples
        = (List.range 119).map (fun i => (((i + 1) / 2 : Nat) : Int)) ++ [0] ∧
      tr.map DfState.positiondet = List.replicate 119 0 ++ [0 + 1] ∧
      tr.getLast? = some last ∧ last.samples = 0 ∧
      last.positions.1 = (List.replicate 60 ((true, ⟨2000, 2000⟩) : Bool × position_t)).map
        Prod.snd :=
  runAxes_sixty_pairs { initState 800 480 with tstate := TouchState.TOUCHED }
    (List.replicate 60 (true, ⟨2000, 2000⟩)) rfl rfl rfl (by decide)
/-! ## `eventLoop` over axis events -/

theorem handleButton_axis (lb : Nat) (s : DfState) (e : DFBInputEvent) (now : timespec)
    (he : e.type = DFBInputEventType.DIET_AXISMOTION) :
    handleButton lb s e now = (false, s) := by
  simp [handleButton, he]

theorem runAxes_cons_some (s : DfState) (e : DFBInputEvent) (es : List DFBInputEvent)
    (tr : List DfState) (h : runAxes s (e :: es) = some tr) :
    ∃ b t tr2, handleAxes s e = some (b, t) ∧ runAxes t es = some tr2 ∧ tr = t :: tr2 := by
  simp only [runAxes] at h
  cases h1 : handleAxes s e with
  | none => simp [h1] at h
  | some r =>
    simp only [h1] at h
    cases h2 : runAxes r.2 es with
    | none => simp [h2] at h
    | some tr2 =>
      simp only [h2, Option.some.injEq] at h
      exact ⟨r.1, r.2, tr2, rfl, h2, h.symm⟩

theorem runAxes_length (es : List DFBInputEvent) :
    ∀ (s : DfState) (tr : List DfState), runAxes s es = some tr → tr.length = es.length := by
  induction es with
  | nil => intro s tr h; simp [runAxes] at h; simp [← h]
  | cons e es ih =>
    intro s tr h
    obtain ⟨b, t, tr2, _, h2, rfl⟩ := runAxes_cons_some s e es tr h
    simp [ih t tr2 h2]

theorem pairsEvents_axis (ps : List (Bool × position_t)) :
    ∀ e ∈ pairsEvents ps, e.type = DFBInputEventType.DIET_AXISMOTION := by
  induction ps with
  | nil => intro e he; simp [pairsEvents] at he
  | cons q qs ih =>
    intro e he
    simp only [pairsEvents, List.mem_append] at he
    rcases he with h | h
    · cases hb : q.1 <;> simp [pairEvents, hb] at h <;> rcases h with rfl | rfl <;> rfl
    · exact ih e h

/-- An `eventLoop` call fed axis events only, on which `handleAxes` raises the
semaphore at the last event and not before, and the pipeline is never
released: the call reads all of them, takes the semaphore and returns the
position left by the last `handleAxes` call. -/
theorem eventLoop_axes (lb : Nat) (clk : timespec) (evs : List DFBInputEvent) :
    ∀ (s : DfState) (tr : List DfState) (last : DfState) (k : Nat) (rest : List Input),
      (∀ e ∈ evs, e.type = DFBInputEventType.DIET_AXISMOTION) →
      runAxes s evs = some tr → tr.getLast? = some last →
      (∀ t ∈ tr, t.tstate ≠ TouchState.RELEASED) →
      tr.map DfState.positiondet = List.replicate k 0 ++ [1] →
      (eventLoop lb s (inputsOf clk evs ++ rest)).2
        = LoopResult.returned LoopExit.determined last.curpos
            { last with positiondet := last.positiondet - 1 } rest := by
  induction evs with
  | nil =>
    intro s tr last k rest _ hrun _ _ hdet
    simp only [runAxes, Option.some.injEq] at hrun
    subst hrun
    have := congrArg List.length hdet
    simp at this
  | cons e es ih =>
    intro s tr last k rest hax hrun hlast hrel hdet
    obtain ⟨b, t, tr2, h1, h2, rfl⟩ := runAxes_cons_some s e es tr hrun
    have het : e.type = DFBInputEventType.DIET_AXISMOTION := hax e (List.mem_cons_self _ _)
    have htr : t.tstate ≠ TouchState.RELEASED := hrel t (List.mem_cons_self _ _)
    have hlen := runAxes_length es t tr2 h2
    simp only [inputsOf, List.map_cons, List.cons_append, eventLoop,
      handleButton_axis lb s e clk het, h1, htr, if_false]
    cases k with
    | zero =>
      simp only [List.replicate_zero, List.nil_append, List.map_cons, List.cons.injEq,
        List.map_eq_nil_iff] at hdet
      obtain ⟨hd, rfl⟩ := hdet
      simp only [List.getLast?_singleton, Option.some.injEq] at hlast
      subst hlast
      have hes : es = [] := by
        apply List.eq_nil_of_length_eq_zero
        rw [← hlen]; rfl
      subst hes
      simp [hd]
    | succ k =>
      simp only [List.replicate_succ, List.cons_append, List.map_cons, List.cons.injEq] at hdet
      obtain ⟨hd, hdet2⟩ := hdet
      have hne : tr2 ≠ [] := by
        intro h
        rw [h] at hdet2
        have := congrArg List.length hdet2
        simp at this
      obtain ⟨a, l, rfl⟩ := List.exists_cons_of_ne_nil hne
      rw [List.getLast?_cons_cons] at hlast
      have := ih t (a :: l) last k rest (fun e2 he2 => hax e2 (List.mem_cons_of_mem _ he2)) h2
        hlast (fun t2 ht2 => hrel t2 (List.mem_cons_of_mem _ ht2)) hdet2
      simp only [inputsOf] at this
      simp [hd, this]
/-! ## Scenario 1 -/

theorem specMean_eq_2000 (vs : List Int) (h : specMean vs = 2000) :
    120000 ≤ vs.sum ∧ vs.sum ≤ 120059 := by
  unfold specMean at h
  by_cases hn : 0 ≤ vs.sum
  · rw [Int.tdiv_eq_ediv hn (by decide)] at h
    omega
  · exfalso
    have h1 : 0 ≤ Int.tdiv (-vs.sum) 60 := Int.tdiv_nonneg (by omega) (by decide)
    rw [Int.neg_tdiv] at h1
    omega

theorem sumLoop_eq_of_mean (c : position_t → Int) (w : Positions)
    (h : specMean (w.1.map c) = 2000) : Int.tdiv (sumLoop c w) 60 = 2000 := by
  have hb := specMean_eq_2000 _ h
  rw [sumLoop_of_fits c w ⟨by have := hb.1; norm_num; omega, by have := hb.2; norm_num; omega⟩]
  exact h

/-- C5 (as amended): from the start-up state on an 800 by 480 surface, a
press followed by 60 samples, each delivered as one X and one Y event, whose
truncated means are 2000 and 2000, makes `eventLoop` return with the handoff
taken and the calibrated position `screenX = 383`, `screenY = 225`. -/
theorem eventLoop_scenario1 (lb : Nat) (c0 clk : timespec) (ps : List (Bool × position_t))
    (hp : ps.length = 60)
    (hx : specMean (ps.map (fun q => q.2.x)) = 2000)
    (hy : specMean (ps.map (fun q => q.2.y)) = 2000) :
    ∃ t, (eventLoop lb (initState 800 480)
            (⟨some evPress, c0⟩ :: inputsOf clk (pairsEvents ps))).2
          = LoopResult.returned LoopExit.determined ⟨383, 225⟩ t [] ∧
      t.curpos = ⟨383, 225⟩ ∧ t.positiondet = 0 := by
  obtain ⟨q, qs, rfl⟩ := List.exists_cons_of_ne_nil
    (l := ps) (by intro h; rw [h] at hp; simp at hp)
  have hq : qs.length = 59 := by simpa using hp
  obtain ⟨tr, last, h1, _, h3, h4, h5, h6, h7⟩ :=
    runAxes_pairs qs q { initState 800 480 with lastTouch := c0, tstate := TouchState.TOUCHED }
      0 (by simp) rfl rfl (by omega)
  have hloop := eventLoop_axes lb clk (pairsEvents (q :: qs)) _ tr last (2 * qs.length + 1) []
    (pairsEvents_axis _) h1 h5 (fun t ht => by rw [h4 t ht]; simp) h3
  rw [List.append_nil] at hloop
  have hwx : last.positions.1.map position_t.x = (q :: qs).map (fun q => q.2.x) := by
    rw [h7]; simp
  have hwy : last.positions.1.map position_t.y = (q :: qs).map (fun q => q.2.y) := by
    rw [h7]; simp
  have hcur : last.curpos = ⟨383, 225⟩ := by
    rw [h6]
    simp only [averaged]
    rw [sumLoop_eq_of_mean position_t.x _ (by rw [hwx]; exact hx),
      sumLoop_eq_of_mean position_t.y _ (by rw [hwy]; exact hy)]
    decide
  have hdet : last.positiondet = 1 := by rw [h6]; rfl
  refine ⟨{ last with positiondet := last.positiondet - 1 }, ?_, hcur, by simp [hdet]⟩
  rw [← hcur, ← hloop]
  simp [eventLoop, handleButton, evPress, handleAxes, initState]

/-- Witness of C5: every reading equal to 2000, the X event first, on an
LP64 target. -/
theorem eventLoop_scenario1_witness :
    ∃ t, (eventLoop 64 (initState 800 480)
            (⟨some evPress, ⟨10, 0⟩⟩ :: inputsOf ⟨10, 5000⟩
              (pairsEvents (List.replicate 60 (true, ⟨2000, 2000⟩))))).2
          = LoopResult.returned LoopExit.determined ⟨383, 225⟩ t [] ∧
      t.curpos = ⟨383, 225⟩ ∧ t.positiondet = 0 :=
  eventLoop_scenario1 64 ⟨10, 0⟩ ⟨10, 5000⟩ (List.replicate 60 (true, ⟨2000, 2000⟩))
    (by decide) (by decide) (by decide)

set_option maxRecDepth 100000 in
/-- Counterexample to C5 as stated: with every reading equal to 2000 the
position returned is (383, 225), not (383, 227). -/
theorem eventLoop_scenario1_value :
    (eventLoop 64 (initState 800 480)
        (⟨some evPress, ⟨10, 0⟩⟩ :: inputsOf ⟨10, 5000⟩
          (pairsEvents (List.replicate 60 (true, ⟨2000, 2000⟩))))).2.pos?
      = some ⟨383, 225⟩ ∧
    (eventLoop 64 (initState 800 480)
        (⟨some evPress, ⟨10, 0⟩⟩ :: inputsOf ⟨10, 5000⟩
          (pairsEvents (List.replicate 60 (true, ⟨2000, 2000⟩))))).2.pos?
      ≠ some ⟨383, 227⟩ := by
  decide
/-! ## Idle reset and release -/

/-- C7, evaluated on the code: in the start-up state (touch state
`RELEASED`, empty window) an X event followed by a Y event leaves the window
length at 1 on return from the second `handleAxes` call, the touch state
still being `RELEASED`. -/
theorem handleAxes_released_stores :
    (initState 800 480).tstate = TouchState.RELEASED ∧
    (initState 800 480).samples = 0 ∧
    (runAxes (initState 800 480) [evX 1000, evY 2000]).map
        (List.map (fun s => (s.tstate, s.samples)))
      = some [(TouchState.RELEASED, 0), (TouchState.RELEASED, 1)] := by
  decide

theorem handleButton_samples (lb : Nat) (s : DfState) (e : DFBInputEvent) (now : timespec) :
    (handleButton lb s e now).2.samples = s.samples := by
  unfold handleButton
  split
  · rfl
  · split <;> rfl
  · rfl

theorem putPosition_samples (s : DfState) (h0 : 0 ≤ s.samples) (h1 : s.samples < 60) :
    ∃ b t, putPosition s = some (b, t) ∧ 0 ≤ t.samples ∧ t.samples < 60 := by
  unfold putPosition
  by_cases hst : s.st = 3
  · have h2 : s.samples < POSSAMPLES := h1
    by_cases h60 : s.samples + 1 = POSSAMPLES
    · simp only [hst, h0, h2, h60, and_self, if_true]
      exact ⟨_, _, rfl, le_refl _, by norm_num⟩
    · simp only [hst, h0, h2, h60, and_self, if_true, if_false]
      refine ⟨_, _, rfl, by simp only; omega, ?_⟩
      unfold POSSAMPLES at h60
      simp only
      omega
  · simp only [hst, if_false]
    exact ⟨_, _, rfl, h0, h1⟩

theorem handleAxes_samples (s : DfState) (e : DFBInputEvent)
    (h0 : 0 ≤ s.samples) (h1 : s.samples < 60) :
    ∃ b t, handleAxes s e = some (b, t) ∧ 0 ≤ t.samples ∧ t.samples < 60 := by
  have hs0 : 0 ≤ (if s.tstate = TouchState.RELEASED then { s with samples := 0 } else s).samples ∧
      (if s.tstate = TouchState.RELEASED then { s with samples := 0 } else s).samples < 60 := by
    split
    · exact ⟨le_refl _, by norm_num⟩
    · exact ⟨h0, h1⟩
  unfold handleAxes
  simp only
  split
  · exact ⟨_, _, rfl, hs0⟩
  · split
    · exact putPosition_samples _ hs0.1 hs0.2
    · exact putPosition_samples _ hs0.1 hs0.2
    · exact ⟨_, _, rfl, hs0⟩

theorem runCalls_samples (lb : Nat) (cs : List Call) :
    ∀ s : DfState, 0 ≤ s.samples → s.samples < 60 →
      ∃ tr, runCalls lb s cs = some tr ∧ tr.length = cs.length ∧
        ∀ t ∈ tr, (0 ≤ t.samples ∧ t.samples < 60) ∧ ∀ e, handleAxes t e ≠ none := by
  induction cs with
  | nil => intro s _ _; exact ⟨[], rfl, rfl, fun t ht => absurd ht (List.not_mem_nil t)⟩
  | cons c cs ih =>
    intro s h0 h1
    cases c with
    | button e now =>
      have hb := handleButton_samples lb s e now
      obtain ⟨tr, htr, hlen, hall⟩ := ih (handleButton lb s e now).2 (by rw [hb]; exact h0)
        (by rw [hb]; exact h1)
      refine ⟨(handleButton lb s e now).2 :: tr, by simp [runCalls, htr], by simp [hlen], ?_⟩
      intro t ht
      rcases List.mem_cons.1 ht with rfl | h
      · refine ⟨⟨by rw [hb]; exact h0, by rw [hb]; exact h1⟩, fun e2 => ?_⟩
        obtain ⟨b, u, hu, _⟩ := handleAxes_samples (handleButton lb s e now).2 e2
          (by rw [hb]; exact h0) (by rw [hb]; exact h1)
        rw [hu]; simp
      · exact hall t h
    | axes e =>
      obtain ⟨b, t1, ht1, g0, g1⟩ := handleAxes_samples s e h0 h1
      obtain ⟨tr, htr, hlen, hall⟩ := ih t1 g0 g1
      refine ⟨t1 :: tr, by simp [runCalls, ht1, htr], by simp [hlen], ?_⟩
      intro t ht
      rcases List.mem_cons.1 ht with rfl | h
      · refine ⟨⟨g0, g1⟩, fun e2 => ?_⟩
        obtain ⟨b2, u, hu, _⟩ := handleAxes_samples t e2 g0 g1
        rw [hu]; simp
      · exact hall t h

/-- C9: from the start-up state, every sequence of `handleButton` and
`handleAxes` calls on arbitrary events runs to its end (no store ever leaves
the array `positions`), and on return from each call `0 ≤ samples < 60`, so
that a further `handleAxes` call on any event again stores inside the
array. -/
theorem samples_in_bounds (lb : Nat) (xres yres : Int) (cs : List Call) :
    ∃ tr, runCalls lb (initState xres yres) cs = some tr ∧ tr.length = cs.length ∧
      ∀ t ∈ tr, (0 ≤ t.samples ∧ t.samples < 60) ∧ ∀ e, handleAxes t e ≠ none :=
  runCalls_samples lb cs (initState xres yres) (le_refl _) (by simp [initState])
/-! ## The semaphore under `eventLoop` -/

theorem handleButton_positiondet (lb : Nat) (s : DfState) (e : DFBInputEvent)
    (now : timespec) : (handleButton lb s e now).2.positiondet = s.positiondet := by
  unfold handleButton
  split
  · rfl
  · split <;> rfl
  · rfl

theorem putPosition_positiondet (s : DfState) (b : Bool) (t : DfState)
    (h : putPosition s = some (b, t)) :
    t.tstate = s.tstate ∧
    (t.positiondet = s.positiondet ∨
      (t.positiondet = s.positiondet + 1 ∧ s.samples + 1 = POSSAMPLES)) := by
  unfold putPosition at h
  by_cases hst : s.st = 3
  · by_cases hin : 0 ≤ s.samples ∧ s.samples < POSSAMPLES
    · by_cases h60 : s.samples + 1 = POSSAMPLES
      · simp only [hst, hin, h60, and_self, if_true, Option.some.injEq, Prod.mk.injEq] at h
        obtain ⟨_, rfl⟩ := h
        exact ⟨rfl, Or.inr ⟨rfl, h60⟩⟩
      · simp only [hst, hin, h60, and_self, if_true, if_false, Option.some.injEq,
          Prod.mk.injEq] at h
        obtain ⟨_, rfl⟩ := h
        exact ⟨rfl, Or.inl rfl⟩
    · simp [hst, hin] at h
  · simp only [hst, if_false, Option.some.injEq, Prod.mk.injEq] at h
    obtain ⟨_, rfl⟩ := h
    exact ⟨rfl, Or.inl rfl⟩

/-- A `handleAxes` call keeps the touch state, raises the semaphore by at
most one, and does not raise it while the touch state is `RELEASED`. -/
theorem handleAxes_positiondet (s : DfState) (e : DFBInputEvent) (b : Bool) (t : DfState)
    (h : handleAxes s e = some (b, t)) :
    t.tstate = s.tstate ∧
    (t.positiondet = s.positiondet ∨
      (t.positiondet = s.positiondet + 1 ∧ s.tstate ≠ TouchState.RELEASED)) := by
  unfold handleAxes at h
  simp only at h
  by_cases hr : s.tstate = TouchState.RELEASED
  · simp only [hr, if_true] at h
    split at h
    · simp only [Option.some.injEq, Prod.mk.injEq] at h
      obtain ⟨_, rfl⟩ := h
      exact ⟨hr.symm, Or.inl rfl⟩
    · split at h
      · obtain ⟨h1, h2⟩ := putPosition_positiondet _ b t h
        refine ⟨h1.trans hr.symm, Or.inl ?_⟩
        rcases h2 with h2 | ⟨_, h3⟩
        · exact h2
        · simp [POSSAMPLES] at h3
      · obtain ⟨h1, h2⟩ := putPosition_positiondet _ b t h
        refine ⟨h1.trans hr.symm, Or.inl ?_⟩
        rcases h2 with h2 | ⟨_, h3⟩
        · exact h2
        · simp [POSSAMPLES] at h3
      · simp only [Option.some.injEq, Prod.mk.injEq] at h
        obtain ⟨_, rfl⟩ := h
        exact ⟨hr.symm, Or.inl rfl⟩
  · simp only [hr, if_false] at h
    split at h
    · simp only [Option.some.injEq, Prod.mk.injEq] at h
      obtain ⟨_, rfl⟩ := h
      exact ⟨rfl, Or.inl rfl⟩
    · split at h
      · obtain ⟨h1, h2⟩ := putPosition_positiondet _ b t h
        refine ⟨h1, ?_⟩
        rcases h2 with h2 | ⟨h2, _⟩
        · exact Or.inl h2
        · exact Or.inr ⟨h2, hr⟩
      · obtain ⟨h1, h2⟩ := putPosition_positiondet _ b t h
        refine ⟨h1, ?_⟩
        rcases h2 with h2 | ⟨h2, _⟩
        · exact Or.inl h2
        · exact Or.inr ⟨h2, hr⟩
      · simp only [Option.some.injEq, Prod.mk.injEq] at h
        obtain ⟨_, rfl⟩ := h
        exact ⟨rfl, Or.inl rfl⟩

theorem handleButton_determined (lb : Nat) (s : DfState) (e : DFBInputEvent)
    (now : timespec) (b : Bool) (t : DfState)
    (h : handleAxes (handleButton lb s e now).2 e = some (b, t)) (hs : s.positiondet = 0) :
    (t.positiondet = 0 ∨ t.positiondet = 1) ∧
    (t.tstate = TouchState.RELEASED → t.positiondet = 0) := by
  obtain ⟨h1, h2⟩ := handleAxes_positiondet _ e b t h
  rw [handleButton_positiondet, hs] at h2
  refine ⟨?_, fun hr => ?_⟩
  · rcases h2 with h2 | ⟨h2, _⟩
    · exact Or.inl h2
    · exact Or.inr (by rw [h2]; rfl)
  · rcases h2 with h2 | ⟨_, h3⟩
    · exact h2
    · exact absurd (h1 ▸ hr) h3

/-- One `eventLoop` call entered with the semaphore at 0: every state passed
through has the semaphore at 0 or 1, and the state of return has it at 0. -/
theorem eventLoop_positiondet (lb : Nat) (stream : List Input) :
    ∀ s : DfState, s.positiondet = 0 →
      (∀ t ∈ (eventLoop lb s stream).1, 0 ≤ t.positiondet ∧ t.positiondet ≤ 1) ∧
      (∀ why p t rest, (eventLoop lb s stream).2 = LoopResult.returned why p t rest →
        t.positiondet = 0) := by
  induction stream with
  | nil =>
    intro s _
    simp [eventLoop]
  | cons i rest ih =>
    intro s hs
    cases hev : i.ev with
    | none =>
      simp only [eventLoop, hev]
      refine ⟨fun t ht => absurd ht (List.not_mem_nil t), ?_⟩
      intro why p t r h
      simp only [LoopResult.returned.injEq] at h
      rw [← h.2.2.1]; exact hs
    | some e =>
      have hb := handleButton_positiondet lb s e i.clock
      cases hax : handleAxes (handleButton lb s e i.clock).2 e with
      | none =>
        simp only [eventLoop, hev, hax]
        refine ⟨fun t ht => ?_, fun why p t r h => by simp at h⟩
        simp only [List.mem_singleton] at ht
        rw [ht, hb, hs]; decide
      | some r =>
        obtain ⟨h01, hrel⟩ := handleButton_determined lb s e i.clock r.1 r.2 hax hs
        have hr2 : 0 ≤ r.2.positiondet ∧ r.2.positiondet ≤ 1 := by
          rcases h01 with h | h <;> rw [h] <;> decide
        have hs1 : 0 ≤ (handleButton lb s e i.clock).2.positiondet ∧
            (handleButton lb s e i.clock).2.positiondet ≤ 1 := by
          rw [hb, hs]; decide
        simp only [eventLoop, hev, hax]
        by_cases hR : r.2.tstate = TouchState.RELEASED
        · simp only [hR, if_true]
          refine ⟨fun t ht => ?_, fun why p t r2 h => ?_⟩
          · simp only [List.mem_cons, List.mem_singleton, List.not_mem_nil, or_false] at ht
            rcases ht with rfl | rfl
            · exact hs1
            · exact hr2
          · simp only [LoopResult.returned.injEq] at h
            rw [← h.2.2.1]; exact hrel hR
        · simp only [hR, if_false]
          by_cases hpos : 0 < r.2.positiondet
          · simp only [hpos, if_true]
            have h1 : r.2.positiondet = 1 := by
              rcases h01 with h | h
              · rw [h] at hpos; exact absurd hpos (by decide)
              · exact h
            refine ⟨fun t ht => ?_, fun why p t r2 h => ?_⟩
            · simp only [List.mem_cons, List.mem_singleton, List.not_mem_nil, or_false] at ht
              rcases ht with rfl | rfl | rfl
              · exact hs1
              · exact hr2
              · simp only [h1]; decide
            · simp only [LoopResult.returned.injEq] at h
              rw [← h.2.2.1]; simp only [h1]; decide
          · simp only [hpos, if_false]
            have h0 : r.2.positiondet = 0 := by
              rcases h01 with h | h
              · exact h
              · rw [h] at hpos; exact absurd (by decide) hpos
            obtain ⟨ih1, ih2⟩ := ih r.2 h0
            refine ⟨fun t ht => ?_, ih2⟩
            simp only [List.mem_cons] at ht
            rcases ht with rfl | rfl | h
            · exact hs1
            · exact hr2
            · exact ih1 t h

theorem eventLoopCalls_positiondet (lb : Nat) (n : Nat) :
    ∀ (s : DfState) (stream : List Input), s.positiondet = 0 →
      (∀ t ∈ (eventLoopCalls lb n s stream).1, 0 ≤ t.positiondet ∧ t.positiondet ≤ 1) ∧
      (∀ t ∈ (eventLoopCalls lb n s stream).2, t.positiondet = 0) := by
  induction n with
  | zero =>
    intro s stream _
    simp [eventLoopCalls]
  | succ n ih =>
    intro s stream hs
    obtain ⟨h1, h2⟩ := eventLoop_positiondet lb stream s hs
    unfold eventLoopCalls
    cases hres : eventLoop lb s stream with
    | mk log res =>
      rw [hres] at h1 h2
      cases res with
      | returned why p s1 rest =>
        have hs1 : s1.positiondet = 0 := h2 why p s1 rest rfl
        obtain ⟨g1, g2⟩ := ih s1 rest hs1
        simp only
        refine ⟨fun t ht => ?_, fun t ht => ?_⟩
        · rcases List.mem_append.1 ht with h | h
          · exact h1 t h
          · exact g1 t h
        · rcases List.mem_cons.1 ht with rfl | h
          · exact hs1
          · exact g2 t h
      | waiting s1 =>
        exact ⟨h1, fun t ht => absurd ht (List.not_mem_nil t)⟩
      | undefined =>
        exact ⟨h1, fun t ht => absurd ht (List.not_mem_nil t)⟩

/-- C10: when the pipeline is driven through `eventLoop` calls only, from the
start-up state, for every supply of inputs and every number of calls, the
semaphore value is between 0 and 1 in every state the calls pass through
(after each `handleButton`, `handleAxes` and `sem_wait`), and it is 0 in the
state in which each call returns. -/
theorem positiondet_at_most_one (lb : Nat) (xres yres : Int) (n : Nat)
    (stream : List Input) :
    (∀ t ∈ (eventLoopCalls lb n (initState xres yres) stream).1,
      0 ≤ t.positiondet ∧ t.positiondet ≤ 1) ∧
    (∀ t ∈ (eventLoopCalls lb n (initState xres yres) stream).2, t.positiondet = 0) :=
  eventLoopCalls_positiondet lb n (initState xres yres) stream rfl
/-! ## The return value of `handleAxes` -/

/-- C13, evaluated on the code: in the start-up state `handleAxes` returns
`false` on an axis-motion event whose axis is Z (the `default` case of the
`switch`), and `true` on an axis-motion event on the X axis. -/
theorem handleAxes_axis_z_false :
    (⟨DFBInputEventType.DIET_AXISMOTION, DFBInputDeviceAxisIdentifier.DIAI_Z, 5⟩ :
        DFBInputEvent).type = DFBInputEventType.DIET_AXISMOTION ∧
    handleAxes (initState 800 480)
        ⟨DFBInputEventType.DIET_AXISMOTION, DFBInputDeviceAxisIdentifier.DIAI_Z, 5⟩
      = some (false, initState 800 480) ∧
    (handleAxes (initState 800 480) (evX 5)).map Prod.fst = some true := by
  decide

/-! ## The calibration expressions on their own -/

theorem tdiv_3738_bounds (a : Int) (ha : FitsSigned 32 a) :
    -(2 ^ 30 : Int) ≤ Int.tdiv a 3738 ∧ Int.tdiv a 3738 ≤ 2 ^ 30 := by
  obtain ⟨h1, h2⟩ := ha
  norm_num at h1 h2 ⊢
  by_cases hn : 0 ≤ a
  · rw [Int.tdiv_eq_ediv hn (by decide)]
    constructor <;> omega
  · have e : Int.tdiv a 3738 = -(Int.tdiv (-a) 3738) := by rw [Int.neg_tdiv, neg_neg]
    rw [e, Int.tdiv_eq_ediv (by omega) (by decide)]
    constructor <;> omega

theorem tdiv_3371_bounds (a : Int) (ha : FitsSigned 32 a) :
    -(2 ^ 30 : Int) ≤ Int.tdiv a (-3371) ∧ Int.tdiv a (-3371) ≤ 2 ^ 30 := by
  obtain ⟨h1, h2⟩ := ha
  rw [show (-3371 : Int) = -(3371 : Int) by rfl, Int.tdiv_neg]
  norm_num at h1 h2 ⊢
  by_cases hn : 0 ≤ a
  · rw [Int.tdiv_eq_ediv hn (by decide)]
    constructor <;> omega
  · have e : Int.tdiv a 3371 = -(Int.tdiv (-a) 3371) := by rw [Int.neg_tdiv, neg_neg]
    rw [e, Int.tdiv_eq_ediv (by omega) (by decide)]
    constructor <;> omega

theorem calibX_fits (x xres : Int) : FitsSigned 32 (calibX x xres) := by
  unfold calibX CalXR
  have h := tdiv_3738_bounds _ (wrapSigned_fits 32
    (wrapInt32 (x - CalX1) * wrapInt32 (xres - 1)))
  unfold FitsSigned
  obtain ⟨h1, h2⟩ := h
  unfold wrapInt32 at *
  norm_num at h1 h2 ⊢
  constructor <;> omega

theorem calibY_fits (y yres : Int) : FitsSigned 32 (calibY y yres) := by
  unfold calibY CalYR
  have h := tdiv_3371_bounds _ (wrapSigned_fits 32
    (wrapInt32 (y - CalY1) * wrapInt32 (yres - 1)))
  unfold FitsSigned
  obtain ⟨h1, h2⟩ := h
  unfold wrapInt32 at *
  norm_num at h1 h2 ⊢
  constructor <;> omega

/-- C14: the calibration does not clamp.  On an 800 by 480 surface there are
raw means inside 0..4095 that give a negative `screenX` (0 gives -43), a
`screenX` above 799 (4095 gives 831), a negative `screenY` (4095 gives -72)
and a `screenY` above 479 (0 gives 509).  The expressions have no failure
branch: both divisors are non-zero, and for every mean and resolution the
value computed is an `int`. -/
theorem calibration_not_clamped :
    (∃ meanX : Int, 0 ≤ meanX ∧ meanX ≤ 4095 ∧ calibX meanX 800 < 0) ∧
    (∃ meanX : Int, 0 ≤ meanX ∧ meanX ≤ 4095 ∧ 799 < calibX meanX 800) ∧
    (∃ meanY : Int, 0 ≤ meanY ∧ meanY ≤ 4095 ∧ calibY meanY 480 < 0) ∧
    (∃ meanY : Int, 0 ≤ meanY ∧ meanY ≤ 4095 ∧ 479 < calibY meanY 480) ∧
    CalXR ≠ 0 ∧ CalYR ≠ 0 ∧
    (∀ x xres : Int, FitsSigned 32 (calibX x xres)) ∧
    (∀ y yres : Int, FitsSigned 32 (calibY y yres)) :=
  ⟨⟨0, by decide, by decide, by decide⟩, ⟨4095, by decide, by decide, by decide⟩,
   ⟨4095, by decide, by decide, by decide⟩, ⟨0, by decide, by decide, by decide⟩,
   by decide, by decide, calibX_fits, calibY_fits⟩
theorem fitsSigned32_iff (z : Int) :
    FitsSigned 32 z ↔ -2147483648 ≤ z ∧ z < 2147483648 := by
  unfold FitsSigned
  norm_num

theorem wrapInt32_of_bounds (z : Int) (h1 : -2147483648 ≤ z) (h2 : z < 2147483648) :
    wrapInt32 z = z :=
  wrapSigned_of_fits ((fitsSigned32_iff z).2 ⟨h1, h2⟩)

/-- C19 (as amended): for every resolution with `1 ≤ xres ≤ 574501` and
`1 ≤ yres ≤ 637047` (those for which the 32-bit products cannot wrap) and
all raw means with `205 ≤ meanX ≤ 3943` and `216 ≤ meanY ≤ 3587`, the
calibration gives `0 ≤ screenX ≤ xres - 1` and `0 ≤ screenY ≤ yres - 1`. -/
theorem calibration_on_screen (meanX meanY xres yres : Int)
    (hx1 : 1 ≤ xres) (hx2 : xres ≤ 574501) (hy1 : 1 ≤ yres) (hy2 : yres ≤ 637047)
    (hmx1 : 205 ≤ meanX) (hmx2 : meanX ≤ 3943) (hmy1 : 216 ≤ meanY) (hmy2 : meanY ≤ 3587) :
    (0 ≤ calibX meanX xres ∧ calibX meanX xres ≤ xres - 1) ∧
    (0 ≤ calibY meanY yres ∧ calibY meanY yres ≤ yres - 1) := by
  constructor
  · unfold calibX CalX1 CalXR
    have hp0 : 0 ≤ (meanX - 205) * (xres - 1) :=
      mul_nonneg (by omega) (by omega)
    have hp1 : (meanX - 205) * (xres - 1) ≤ (xres - 1) * 3738 := by
      rw [mul_comm (xres - 1)]
      exact mul_le_mul_of_nonneg_right (by omega) (by omega)
    rw [wrapInt32_of_bounds (meanX - 205) (by omega) (by omega),
      wrapInt32_of_bounds (xres - 1) (by omega) (by omega),
      wrapInt32_of_bounds _ (by omega) (by omega),
      Int.tdiv_eq_ediv hp0 (by decide)]
    exact ⟨Int.ediv_nonneg hp0 (by decide), Int.ediv_le_of_le_mul (by decide) hp1⟩
  · unfold calibY CalY1 CalYR
    have hp0 : 0 ≤ (3587 - meanY) * (yres - 1) :=
      mul_nonneg (by omega) (by omega)
    have hp1 : (3587 - meanY) * (yres - 1) ≤ (yres - 1) * 3371 := by
      rw [mul_comm (yres - 1)]
      exact mul_le_mul_of_nonneg_right (by omega) (by omega)
    have hneg : (meanY - 3587) * (yres - 1) = -((3587 - meanY) * (yres - 1)) := by ring
    rw [wrapInt32_of_bounds (meanY - 3587) (by omega) (by omega),
      wrapInt32_of_bounds (yres - 1) (by omega) (by omega),
      wrapInt32_of_bounds _ (by omega) (by omega), hneg,
      show (-3371 : Int) = -(3371 : Int) by rfl, Int.neg_tdiv_neg,
      Int.tdiv_eq_ediv hp0 (by decide)]
    exact ⟨Int.ediv_nonneg hp0 (by decide), Int.ediv_le_of_le_mul (by decide) hp1⟩

/-- Witness of C19: the far reference point on an 800 by 480 surface. -/
theorem calibration_on_screen_witness :
    (0 ≤ calibX 3943 800 ∧ calibX 3943 800 ≤ 800 - 1) ∧
    (0 ≤ calibY 216 480 ∧ calibY 216 480 ≤ 480 - 1) :=
  calibration_on_screen 3943 216 800 480 (by decide) (by decide) (by decide) (by decide)
    (by decide) (by decide) (by decide) (by decide)

/-- Counterexample to C19 as stated: with `xres = 574502` and `meanX = 3943`
the product `3738 * 574501` leaves the range of `int` and `screenX` comes out
as -574500; with `yres = 637048` and `meanY = 216`, `screenY` is -637045. -/
theorem calibration_on_screen_overflow :
    ((1 : Int) ≤ 574502 ∧ (205 : Int) ≤ 3943 ∧ (3943 : Int) ≤ 3943 ∧
      calibX 3943 574502 = -574500) ∧
    ((1 : Int) ≤ 637048 ∧ (216 : Int) ≤ 216 ∧ (216 : Int) ≤ 3587 ∧
      calibY 216 637048 = -637045) := by
  decide

/-- C20 (as amended): for every resolution the raw means (205, 3587) give
exactly (0, 0); the raw means (3943, 216) give exactly `xres - 1` when
`3738 * (xres - 1)` is representable as a 32-bit `int`, and exactly
`yres - 1` when `-3371 * (yres - 1)` is. -/
theorem calibration_reference_points (xres yres : Int) :
    (calibX 205 xres = 0 ∧ calibY 3587 yres = 0) ∧
    (FitsSigned 32 (3738 * (xres - 1)) → calibX 3943 xres = xres - 1) ∧
    (FitsSigned 32 (-3371 * (yres - 1)) → calibY 216 yres = yres - 1) := by
  have hz : wrapInt32 0 = 0 := by decide
  refine ⟨⟨?_, ?_⟩, ?_, ?_⟩
  · unfold calibX CalX1 CalXR
    rw [sub_self, hz, zero_mul, hz]
    rfl
  · unfold calibY CalY1 CalYR
    rw [sub_self, hz, zero_mul, hz]
    rfl
  · intro h
    obtain ⟨h1, h2⟩ := (fitsSigned32_iff _).1 h
    unfold calibX CalX1 CalXR
    rw [show (3943 : Int) - 205 = 3738 by rfl, show wrapInt32 3738 = 3738 by decide,
      wrapInt32_of_bounds (xres - 1) (by omega) (by omega),
      wrapInt32_of_bounds _ h1 h2]
    exact Int.mul_tdiv_cancel_left _ (by decide)
  · intro h
    obtain ⟨h1, h2⟩ := (fitsSigned32_iff _).1 h
    unfold calibY CalY1 CalYR
    rw [show (216 : Int) - 3587 = -3371 by rfl, show wrapInt32 (-3371) = -3371 by decide,
      wrapInt32_of_bounds (yres - 1) (by omega) (by omega),
      wrapInt32_of_bounds _ h1 h2]
    exact Int.mul_tdiv_cancel_left _ (by decide)

/-- Witness of C20: an 800 by 480 surface. -/
theorem calibration_reference_points_witness :
    calibX 3943 800 = 800 - 1 ∧ calibY 216 480 = 480 - 1 :=
  ⟨(calibration_reference_points 800 480).2.1 (by decide),
   (calibration_reference_points 800 480).2.2 (by decide)⟩

/-- Counterexample to C20 as stated: on a surface 574502 wide the raw mean
3943 gives `screenX = -574500`, not 574501; on one 637048 high the raw mean
216 gives `screenY = -637045`, not 637047. -/
theorem calibration_reference_points_overflow :
    calibX 3943 574502 = -574500 ∧ calibX 3943 574502 ≠ 574502 - 1 ∧
    calibY 216 637048 = -637045 ∧ calibY 216 637048 ≠ 637048 - 1 := by
  decide
/-! ## The commit rule and the frame of `handleAxes` -/

/-- The tail of `handleAxes` on a bitmask that is 3 and a window length inside
the array: the sample is stored, the bitmask cleared, and the window either
grows by one or, from 59, is averaged and emptied. -/
theorem putPosition_commit (s : DfState) (hst : s.st = 3) (h0 : 0 ≤ s.samples)
    (h1 : s.samples < 60) :
    ∃ t, putPosition s = some (true, t) ∧
      t.positions = s.positions.store s.samples.toNat ⟨s.x, s.y⟩ ∧ t.st = 0 ∧
      t.tstate = s.tstate ∧ t.lastTouch = s.lastTouch ∧
      ((s.samples < 59 ∧ t.samples = s.samples + 1 ∧ t.x = s.x ∧ t.y = s.y ∧
          t.positiondet = s.positiondet ∧ t.curpos = s.curpos) ∨
       (s.samples = 59 ∧ t.samples = 0 ∧ t.positiondet = s.positiondet + 1 ∧
          t.curpos = ⟨calibX (Int.tdiv (sumLoop position_t.x t.positions) 60) s.xres,
                      calibY (Int.tdiv (sumLoop position_t.y t.positions) 60) s.yres⟩)) := by
  have h2 : s.samples < POSSAMPLES := h1
  by_cases h59 : s.samples = 59
  · have h60 : s.samples + 1 = POSSAMPLES := by rw [h59]; rfl
    refine ⟨averaged s (s.positions.store s.samples.toNat ⟨s.x, s.y⟩), ?_,
      by simp only [averaged], by simp only [averaged], by simp only [averaged],
      by simp only [averaged],
      Or.inr ⟨h59, by simp only [averaged], by simp only [averaged], by simp only [averaged]⟩⟩
    simp [putPosition, hst, h0, h1, h59, averaged, POSSAMPLES]
  · have h60 : ¬ (s.samples + 1 = POSSAMPLES) := by unfold POSSAMPLES; omega
    refine ⟨{ s with positions := s.positions.store s.samples.toNat ⟨s.x, s.y⟩, st := 0,
                     samples := s.samples + 1 }, ?_,
      rfl, rfl, rfl, rfl, Or.inl ⟨by omega, rfl, rfl, rfl, rfl, rfl⟩⟩
    simp [putPosition, hst, h0, h2, h60]

theorem putPosition_idle (s : DfState) (hst : s.st ≠ 3) : putPosition s = some (true, s) := by
  simp [putPosition, hst]

/-- On an X event `handleAxes` is the tail of the function on the state after
the touch-off synchronisation, with the X reading stored and bit 0 set. -/
theorem handleAxes_x (s : DfState) (e : DFBInputEvent)
    (hty : e.type = DFBInputEventType.DIET_AXISMOTION)
    (hax : e.axis = DFBInputDeviceAxisIdentifier.DIAI_X) :
    handleAxes s e = putPosition
      { s with samples := syncedSamples s, x := e.axisabs, st := s.st ||| 1 } := by
  unfold handleAxes syncedSamples
  by_cases hr : s.tstate = TouchState.RELEASED <;> simp [hty, hax, hr]

theorem handleAxes_y (s : DfState) (e : DFBInputEvent)
    (hty : e.type = DFBInputEventType.DIET_AXISMOTION)
    (hax : e.axis = DFBInputDeviceAxisIdentifier.DIAI_Y) :
    handleAxes s e = putPosition
      { s with samples := syncedSamples s, y := e.axisabs, st := s.st ||| 2 } := by
  unfold handleAxes syncedSamples
  by_cases hr : s.tstate = TouchState.RELEASED <;> simp [hty, hax, hr]

theorem putPosition_some_range (s : DfState) (b : Bool) (t : DfState)
    (h : putPosition s = some (b, t)) (hst : s.st = 3) :
    0 ≤ s.samples ∧ s.samples < 60 := by
  by_contra hin
  have hin2 : ¬ (0 ≤ s.samples ∧ s.samples < POSSAMPLES) := hin
  simp [putPosition, hst, hin2] at h

/-- The commit rule on the state that the `switch` of `handleAxes` hands to
the tail of the function. -/
theorem putPosition_rule (s : DfState) (b : Bool) (t : DfState)
    (h : putPosition s = some (b, t)) :
    b = true ∧
    (s.st = 3 →
      t.positions = s.positions.store s.samples.toNat ⟨s.x, s.y⟩ ∧ t.st = 0 ∧
      ((s.samples < 59 ∧ t.samples = s.samples + 1 ∧ t.x = s.x ∧ t.y = s.y) ∨
       (s.samples = 59 ∧ t.samples = 0))) ∧
    (s.st ≠ 3 → t = s) := by
  by_cases hst : s.st = 3
  · obtain ⟨g0, g1⟩ := putPosition_some_range s b t h hst
    obtain ⟨u, hu, hp, hs0, _, _, hc⟩ := putPosition_commit s hst g0 g1
    rw [hu] at h
    simp only [Option.some.injEq, Prod.mk.injEq] at h
    obtain ⟨hb, rfl⟩ := h
    refine ⟨hb.symm, fun _ => ⟨hp, hs0, ?_⟩, fun hne => absurd hst hne⟩
    rcases hc with ⟨c1, c2, c3, c4, _, _⟩ | ⟨c1, c2, _, _⟩
    · exact Or.inl ⟨c1, c2, c3, c4⟩
    · exact Or.inr ⟨c1, c2⟩
  · rw [putPosition_idle s hst] at h
    simp only [Option.some.injEq, Prod.mk.injEq] at h
    obtain ⟨hb, rfl⟩ := h
    exact ⟨hb.symm, fun h3 => absurd h3 hst, fun _ => rfl⟩

/-- C15: the commit rule.  For every state and every axis-motion event on X
(resp. Y), whenever the call has a defined result it returns `true` and:
when the bitmask with bit 0 (resp. bit 1) set is 3, it has stored the pair
made of the event value and the pending value of the other axis at the end of
the window, cleared the bitmask, and the window has grown by one (or, from
59, was averaged and emptied); when it is not 3, the window and its length
are as the touch-off synchronisation left them, the event value is the
pending reading of its axis, the other pending reading is kept and the
bitmask has the bit set.  The result is defined whenever the window length
after the synchronisation is inside the array. -/
theorem handleAxes_commit_rule (s : DfState) (e : DFBInputEvent)
    (hty : e.type = DFBInputEventType.DIET_AXISMOTION) :
    (e.axis = DFBInputDeviceAxisIdentifier.DIAI_X →
      ∀ b t, handleAxes s e = some (b, t) →
        b = true ∧
        (s.st ||| 1 = 3 →
          t.positions = s.positions.store (syncedSamples s).toNat ⟨e.axisabs, s.y⟩ ∧
          t.st = 0 ∧
          ((syncedSamples s < 59 ∧ t.samples = syncedSamples s + 1 ∧
              t.x = e.axisabs ∧ t.y = s.y) ∨
           (syncedSamples s = 59 ∧ t.samples = 0))) ∧
        (s.st ||| 1 ≠ 3 →
          t.positions = s.positions ∧ t.samples = syncedSamples s ∧
          t.st = s.st ||| 1 ∧ t.x = e.axisabs ∧ t.y = s.y)) ∧
    (e.axis = DFBInputDeviceAxisIdentifier.DIAI_Y →
      ∀ b t, handleAxes s e = some (b, t) →
        b = true ∧
        (s.st ||| 2 = 3 →
          t.positions = s.positions.store (syncedSamples s).toNat ⟨s.x, e.axisabs⟩ ∧
          t.st = 0 ∧
          ((syncedSamples s < 59 ∧ t.samples = syncedSamples s + 1 ∧
              t.x = s.x ∧ t.y = e.axisabs) ∨
           (syncedSamples s = 59 ∧ t.samples = 0))) ∧
        (s.st ||| 2 ≠ 3 →
          t.positions = s.positions ∧ t.samples = syncedSamples s ∧
          t.st = s.st ||| 2 ∧ t.x = s.x ∧ t.y = e.axisabs)) ∧
    (0 ≤ syncedSamples s → syncedSamples s < 60 →
      e.axis = DFBInputDeviceAxisIdentifier.DIAI_X ∨
        e.axis = DFBInputDeviceAxisIdentifier.DIAI_Y →
      ∃ t, handleAxes s e = some (true, t)) := by
  refine ⟨fun hax b t h => ?_, fun hax b t h => ?_, fun g0 g1 hax => ?_⟩
  · rw [handleAxes_x s e hty hax] at h
    obtain ⟨hb, r1, r2⟩ := putPosition_rule _ b t h
    exact ⟨hb, r1, fun hne => by rw [r2 hne]; exact ⟨rfl, rfl, rfl, rfl, rfl⟩⟩
  · rw [handleAxes_y s e hty hax] at h
    obtain ⟨hb, r1, r2⟩ := putPosition_rule _ b t h
    exact ⟨hb, r1, fun hne => by rw [r2 hne]; exact ⟨rfl, rfl, rfl, rfl, rfl⟩⟩
  · rcases hax with hax | hax
    · rw [handleAxes_x s e hty hax]
      by_cases hst : s.st ||| 1 = 3
      · obtain ⟨t, ht, _⟩ := putPosition_commit
          { s with samples := syncedSamples s, x := e.axisabs, st := s.st ||| 1 } hst g0 g1
        exact ⟨t, ht⟩
      · exact ⟨_, putPosition_idle _ hst⟩
    · rw [handleAxes_y s e hty hax]
      by_cases hst : s.st ||| 2 = 3
      · obtain ⟨t, ht, _⟩ := putPosition_commit
          { s with samples := syncedSamples s, y := e.axisabs, st := s.st ||| 2 } hst g0 g1
        exact ⟨t, ht⟩
      · exact ⟨_, putPosition_idle _ hst⟩

/-- Witness of C15: an X event carrying 5 on `pendingYState`; the sample
(5, 7) is stored at index 0, the bitmask cleared, the window length 1. -/
theorem handleAxes_commit_rule_witness :
    committedState.positions
      = pendingYState.positions.store (syncedSamples pendingYState).toNat
          ⟨(evX 5).axisabs, pendingYState.y⟩ ∧
    committedState.st = 0 ∧
    ((syncedSamples pendingYState < 59 ∧
        committedState.samples = syncedSamples pendingYState + 1 ∧
        committedState.x = (evX 5).axisabs ∧ committedState.y = pendingYState.y) ∨
     (syncedSamples pendingYState = 59 ∧ committedState.samples = 0)) :=
  ((handleAxes_commit_rule pendingYState (evX 5) rfl).1 rfl true committedState
    (by decide)).2.1 (by decide)

theorem handleAxes_not_axis (s : DfState) (e : DFBInputEvent)
    (hty : e.type ≠ DFBInputEventType.DIET_AXISMOTION) :
    handleAxes s e = some (false, { s with samples := syncedSamples s }) := by
  unfold handleAxes syncedSamples
  by_cases hr : s.tstate = TouchState.RELEASED <;> simp [hty, hr]

theorem handleAxes_other_axis (s : DfState) (e : DFBInputEvent)
    (hty : e.type = DFBInputEventType.DIET_AXISMOTION)
    (hx : e.axis ≠ DFBInputDeviceAxisIdentifier.DIAI_X)
    (hy : e.axis ≠ DFBInputDeviceAxisIdentifier.DIAI_Y) :
    handleAxes s e = some (false, { s with samples := syncedSamples s }) := by
  unfold handleAxes syncedSamples
  by_cases hr : s.tstate = TouchState.RELEASED
  · simp only [hty, hr, if_true, ne_eq, not_true_eq_false, if_false]
  · simp only [hty, hr, if_false, ne_eq, not_true_eq_false]

theorem syncedSamples_eq_59 (s : DfState) :
    syncedSamples s = 59 ↔ s.tstate ≠ TouchState.RELEASED ∧ s.samples = 59 := by
  unfold syncedSamples
  by_cases hr : s.tstate = TouchState.RELEASED <;> simp [hr]

/-- What the tail of `handleAxes` leaves alone, and when it posts. -/
theorem putPosition_frame (s : DfState) (b : Bool) (t : DfState)
    (h : putPosition s = some (b, t)) :
    b = true ∧ t.tstate = s.tstate ∧ t.lastTouch = s.lastTouch ∧
    ((s.st = 3 ∧ s.samples = 59 ∧ t.positiondet = s.positiondet + 1 ∧ t.samples = 0 ∧
        t.curpos = ⟨calibX (Int.tdiv (sumLoop position_t.x t.positions) 60) s.xres,
                    calibY (Int.tdiv (sumLoop position_t.y t.positions) 60) s.yres⟩) ∨
     (¬ (s.st = 3 ∧ s.samples = 59) ∧ t.positiondet = s.positiondet ∧
        t.curpos = s.curpos)) := by
  by_cases hst : s.st = 3
  · by_cases hin : 0 ≤ s.samples ∧ s.samples < 60
    · obtain ⟨u, hu, _, _, h3, h4, hc⟩ := putPosition_commit s hst hin.1 hin.2
      rw [hu] at h
      simp only [Option.some.injEq, Prod.mk.injEq] at h
      obtain ⟨hb, rfl⟩ := h
      refine ⟨hb.symm, h3, h4, ?_⟩
      rcases hc with ⟨c1, _, _, _, c5, c6⟩ | ⟨c1, c2, c3, c4⟩
      · exact Or.inr ⟨fun hh => by omega, c5, c6⟩
      · exact Or.inl ⟨hst, c1, c3, c2, c4⟩
    · have hin2 : ¬ (0 ≤ s.samples ∧ s.samples < POSSAMPLES) := hin
      simp [putPosition, hst, hin2] at h
  · rw [putPosition_idle s hst] at h
    simp only [Option.some.injEq, Prod.mk.injEq] at h
    obtain ⟨hb, rfl⟩ := h
    exact ⟨hb.symm, rfl, rfl, Or.inr ⟨fun hh => hst hh.1, rfl, rfl⟩⟩

/-- What a `handleAxes` call leaves alone, and when it posts. -/
theorem handleAxes_frame (s : DfState) (e : DFBInputEvent) (b : Bool) (t : DfState)
    (h : handleAxes s e = some (b, t)) :
    t.tstate = s.tstate ∧ t.lastTouch = s.lastTouch ∧
    ((CompletesWindow s e ∧ t.positiondet = s.positiondet + 1 ∧ t.samples = 0 ∧
        t.curpos = ⟨calibX (Int.tdiv (sumLoop position_t.x t.positions) 60) s.xres,
                    calibY (Int.tdiv (sumLoop position_t.y t.positions) 60) s.yres⟩) ∨
     (¬ CompletesWindow s e ∧ t.positiondet = s.positiondet ∧ t.curpos = s.curpos)) := by
  by_cases hty : e.type = DFBInputEventType.DIET_AXISMOTION
  · by_cases hx : e.axis = DFBInputDeviceAxisIdentifier.DIAI_X
    · rw [handleAxes_x s e hty hx] at h
      obtain ⟨_, h1, h2, hc⟩ := putPosition_frame _ b t h
      refine ⟨h1, h2, ?_⟩
      rcases hc with ⟨c1, c2, c3, c4, c5⟩ | ⟨c1, c2, c3⟩
      · have := (syncedSamples_eq_59 s).1 c2
        exact Or.inl ⟨⟨this.1, this.2, hty, Or.inl ⟨hx, c1⟩⟩, c3, c4, c5⟩
      · refine Or.inr ⟨fun hcw => c1 ?_, c2, c3⟩
        obtain ⟨w1, w2, _, w4⟩ := hcw
        rcases w4 with ⟨_, w5⟩ | ⟨w5, _⟩
        · exact ⟨w5, (syncedSamples_eq_59 s).2 ⟨w1, w2⟩⟩
        · rw [hx] at w5; exact absurd w5 (by decide)
    · by_cases hy : e.axis = DFBInputDeviceAxisIdentifier.DIAI_Y
      · rw [handleAxes_y s e hty hy] at h
        obtain ⟨_, h1, h2, hc⟩ := putPosition_frame _ b t h
        refine ⟨h1, h2, ?_⟩
        rcases hc with ⟨c1, c2, c3, c4, c5⟩ | ⟨c1, c2, c3⟩
        · have := (syncedSamples_eq_59 s).1 c2
          exact Or.inl ⟨⟨this.1, this.2, hty, Or.inr ⟨hy, c1⟩⟩, c3, c4, c5⟩
        · refine Or.inr ⟨fun hcw => c1 ?_, c2, c3⟩
          obtain ⟨w1, w2, _, w4⟩ := hcw
          rcases w4 with ⟨w5, _⟩ | ⟨_, w5⟩
          · exact absurd w5 hx
          · exact ⟨w5, (syncedSamples_eq_59 s).2 ⟨w1, w2⟩⟩
      · rw [handleAxes_other_axis s e hty hx hy] at h
        simp only [Option.some.injEq, Prod.mk.injEq] at h
        obtain ⟨_, rfl⟩ := h
        refine ⟨rfl, rfl, Or.inr ⟨fun hcw => ?_, rfl, rfl⟩⟩
        rcases hcw.2.2.2 with ⟨w, _⟩ | ⟨w, _⟩
        · exact hx w
        · exact hy w
  · rw [handleAxes_not_axis s e hty] at h
    simp only [Option.some.injEq, Prod.mk.injEq] at h
    obtain ⟨_, rfl⟩ := h
    exact ⟨rfl, rfl, Or.inr ⟨fun hcw => hty hcw.2.2.1, rfl, rfl⟩⟩

/-- C16: for every state and every event, a `handleAxes` call with a defined
result raises the semaphore by exactly one, writes the calibrated position
computed from the window and leaves the window length at 0 when it stores
the sample that brings the window length to 60 (`CompletesWindow`); in every
other call the semaphore and the calibrated position are unchanged.  The
result is defined whenever the window length is inside the array. -/
theorem handleAxes_handoff (s : DfState) (e : DFBInputEvent) :
    (∀ b t, handleAxes s e = some (b, t) →
      (CompletesWindow s e →
        t.positiondet = s.positiondet + 1 ∧ t.samples = 0 ∧
        t.curpos = ⟨calibX (Int.tdiv (sumLoop position_t.x t.positions) 60) s.xres,
                    calibY (Int.tdiv (sumLoop position_t.y t.positions) 60) s.yres⟩) ∧
      (¬ CompletesWindow s e → t.positiondet = s.positiondet ∧ t.curpos = s.curpos)) ∧
    (0 ≤ s.samples → s.samples < 60 → ∃ b t, handleAxes s e = some (b, t)) := by
  refine ⟨fun b t ht => ?_, fun h0 h1 => ?_⟩
  · obtain ⟨_, _, hc⟩ := handleAxes_frame s e b t ht
    refine ⟨fun hcw => ?_, fun hn => ?_⟩
    · rcases hc with ⟨_, c2, c3, c4⟩ | ⟨c1, _, _⟩
      · exact ⟨c2, c3, c4⟩
      · exact absurd hcw c1
    · rcases hc with ⟨c1, _, _, _⟩ | ⟨_, c2, c3⟩
      · exact absurd c1 hn
      · exact ⟨c2, c3⟩
  · obtain ⟨b, t, ht, _, _⟩ := handleAxes_samples s e h0 h1
    exact ⟨b, t, ht⟩

/-- Witness of C16: the call that stores the 60th sample (2000, 2000) has a
defined result. -/
theorem handleAxes_handoff_witness :
    ∃ b t, handleAxes lastCallState (evY 2000) = some (b, t) :=
  (handleAxes_handoff lastCallState (evY 2000)).2 (by decide) (by decide)

/-! ## Touch state and last-press time -/

theorem handleButton_frame (lb : Nat) (s : DfState) (e : DFBInputEvent) (now : timespec) :
    (handleButton lb s e now).2.positions = s.positions ∧
    (handleButton lb s e now).2.samples = s.samples ∧
    (handleButton lb s e now).2.st = s.st ∧
    (handleButton lb s e now).2.x = s.x ∧
    (handleButton lb s e now).2.y = s.y ∧
    (handleButton lb s e now).2.curpos = s.curpos ∧
    (handleButton lb s e now).2.positiondet = s.positiondet ∧
    (handleButton lb s e now).2.xres = s.xres ∧
    (handleButton lb s e now).2.yres = s.yres := by
  unfold handleButton
  split
  · exact ⟨rfl, rfl, rfl, rfl, rfl, rfl, rfl, rfl, rfl⟩
  · split <;> exact ⟨rfl, rfl, rfl, rfl, rfl, rfl, rfl, rfl, rfl⟩
  · exact ⟨rfl, rfl, rfl, rfl, rfl, rfl, rfl, rfl, rfl⟩

theorem handleButton_lastTouch (lb : Nat) (s : DfState) (e : DFBInputEvent) (now : timespec)
    (h : (handleButton lb s e now).2.lastTouch ≠ s.lastTouch) :
    e.type = DFBInputEventType.DIET_BUTTONPRESS := by
  unfold handleButton at h
  split at h
  · assumption
  · split at h <;> exact absurd rfl h
  · exact absurd rfl h

theorem handleButton_tstate (lb : Nat) (s : DfState) (e : DFBInputEvent) (now : timespec)
    (h : s.tstate ≠ TouchState.ERROR) :
    (handleButton lb s e now).2.tstate ≠ TouchState.ERROR := by
  unfold handleButton
  split
  · simp
  · split
    · exact h
    · simp
  · exact h

theorem runCalls_tstate (lb : Nat) (cs : List Call) :
    ∀ (s : DfState) (tr : List DfState), s.tstate ≠ TouchState.ERROR →
      runCalls lb s cs = some tr → ∀ t ∈ tr, t.tstate ≠ TouchState.ERROR := by
  induction cs with
  | nil =>
    intro s tr _ h t ht
    simp only [runCalls, Option.some.injEq] at h
    rw [← h] at ht
    exact absurd ht (List.not_mem_nil t)
  | cons c cs ih =>
    intro s tr hs h t ht
    cases c with
    | button e now =>
      simp only [runCalls] at h
      cases h2 : runCalls lb (handleButton lb s e now).2 cs with
      | none => simp [h2] at h
      | some tr2 =>
        simp only [h2, Option.some.injEq] at h
        rw [← h] at ht
        rcases List.mem_cons.1 ht with rfl | h3
        · exact handleButton_tstate lb s e now hs
        · exact ih _ tr2 (handleButton_tstate lb s e now hs) h2 t h3
    | axes e =>
      simp only [runCalls] at h
      cases h1 : handleAxes s e with
      | none => simp [h1] at h
      | some r =>
        have hr : r.2.tstate ≠ TouchState.ERROR := by
          rw [(handleAxes_frame s e r.1 r.2 h1).1]; exact hs
        simp only [h1] at h
        cases h2 : runCalls lb r.2 cs with
        | none => simp [h2] at h
        | some tr2 =>
          simp only [h2, Option.some.injEq] at h
          rw [← h] at ht
          rcases List.mem_cons.1 ht with rfl | h3
          · exact hr
          · exact ih _ tr2 hr h2 t h3

/-- C17: for every state and every event, a `handleAxes` call that returns
leaves the touch state and the last-press time as they were; `handleButton`
leaves the window, its length, the bitmask with the pending readings, the
calibrated position and the semaphore as they were; `handleButton` changes
the last-press time only on a button-press event; and from the start-up
state every sequence of `handleButton` and `handleAxes` calls runs to its
end without the touch state ever being `ERROR`. -/
theorem touch_state_only_in_handleButton (lb : Nat) (xres yres : Int) (s : DfState)
    (e : DFBInputEvent) (now : timespec) (cs : List Call) :
    (∀ b t, handleAxes s e = some (b, t) →
      t.tstate = s.tstate ∧ t.lastTouch = s.lastTouch) ∧
    ((handleButton lb s e now).2.positions = s.positions ∧
      (handleButton lb s e now).2.samples = s.samples ∧
      (handleButton lb s e now).2.st = s.st ∧
      (handleButton lb s e now).2.x = s.x ∧
      (handleButton lb s e now).2.y = s.y ∧
      (handleButton lb s e now).2.curpos = s.curpos ∧
      (handleButton lb s e now).2.positiondet = s.positiondet) ∧
    ((handleButton lb s e now).2.lastTouch ≠ s.lastTouch →
      e.type = DFBInputEventType.DIET_BUTTONPRESS) ∧
    (initState xres yres).tstate ≠ TouchState.ERROR ∧
    (∃ tr, runCalls lb (initState xres yres) cs = some tr ∧ tr.length = cs.length ∧
      ∀ t ∈ tr, t.tstate ≠ TouchState.ERROR) := by
  obtain ⟨f1, f2, f3, f4, f5, f6, f7, _, _⟩ := handleButton_frame lb s e now
  obtain ⟨tr, htr, hlen, _⟩ := runCalls_samples lb cs (initState xres yres) (le_refl _)
    (by simp [initState])
  have hinit : (initState xres yres).tstate ≠ TouchState.ERROR := by simp [initState]
  exact ⟨fun b t h => ⟨(handleAxes_frame s e b t h).1, (handleAxes_frame s e b t h).2.1⟩,
    ⟨f1, f2, f3, f4, f5, f6, f7⟩, handleButton_lastTouch lb s e now, hinit,
    tr, htr, hlen, runCalls_tstate lb cs _ tr hinit htr⟩

/-- Witness of C17: an X event in the start-up state; the call returns
with the pending X reading and bit 0 set, the touch state and the last-press
time as before. -/
theorem touch_state_only_in_handleButton_witness :
    handleAxes (initState 800 480) (evX 5)
        = some (true, { initState 800 480 with x := 5, st := 1 }) ∧
    ({ initState 800 480 with x := 5, st := 1 } : DfState).tstate
        = (initState 800 480).tstate ∧
    ({ initState 800 480 with x := 5, st := 1 } : DfState).lastTouch
        = (initState 800 480).lastTouch :=
  ⟨by decide,
   (touch_state_only_in_handleButton 64 800 480 (initState 800 480) (evX 5) ⟨0, 0⟩ []).1
     true { initState 800 480 with x := 5, st := 1 } (by decide)⟩
/-! ## A sample received before the press -/

/-- C18: from the start-up state, an X event and a Y event handled while the
touch state is `RELEASED` (each makes its `eventLoop` call return at once)
leave one sample in the window; a press keeps the window length at 1; and
the `eventLoop` call that reads the press and then 59 pairs returns at the
last of them with the handoff taken, the window averaged being the sample
received before the press followed by the 59 samples, and the position
returned the calibration of its means. -/
theorem sample_before_press_leaks (lb : Nat) (xres yres x0 y0 : Int)
    (c1 c2 c0 clk : timespec) (r1 r2 : List Input) (ps : List (Bool × position_t))
    (hp : ps.length = 59) :
    (eventLoop lb (initState xres yres) (⟨some (evX x0), c1⟩ :: r1)).2
      = LoopResult.returned LoopExit.released ⟨0, 0⟩
          { initState xres yres with x := x0, st := 1 } r1 ∧
    (eventLoop lb { initState xres yres with x := x0, st := 1 }
        (⟨some (evY y0), c2⟩ :: r2)).2
      = LoopResult.returned LoopExit.released ⟨0, 0⟩ (leakedState xres yres x0 y0) r2 ∧
    (leakedState xres yres x0 y0).tstate = TouchState.RELEASED ∧
    (leakedState xres yres x0 y0).samples = 1 ∧
    (eventLoop lb (leakedState xres yres x0 y0) [⟨some evPress, c0⟩]).2
      = LoopResult.waiting
          { leakedState xres yres x0 y0 with lastTouch := c0, tstate := TouchState.TOUCHED } ∧
    ∃ t, (eventLoop lb (leakedState xres yres x0 y0)
            (⟨some evPress, c0⟩ :: inputsOf clk (pairsEvents ps))).2
          = LoopResult.returned LoopExit.determined t.curpos t [] ∧
      t.positions.1 = ⟨x0, y0⟩ :: ps.map Prod.snd ∧
      t.curpos = ⟨calibX (Int.tdiv (sumLoop position_t.x t.positions) 60) xres,
                  calibY (Int.tdiv (sumLoop position_t.y t.positions) 60) yres⟩ ∧
      t.positiondet = 0 ∧ t.samples = 0 := by
  refine ⟨?_, ?_, rfl, rfl, ?_, ?_⟩
  · simp [eventLoop, handleButton, evX, handleAxes, putPosition, initState]
  · simp [eventLoop, handleButton, evY, handleAxes, putPosition, initState, leakedState,
      POSSAMPLES]
  · simp [eventLoop, handleButton, evPress, handleAxes, leakedState, initState]
  · obtain ⟨q, qs, rfl⟩ := List.exists_cons_of_ne_nil
      (l := ps) (by intro h; rw [h] at hp; simp at hp)
    have hq : qs.length = 58 := by simpa using hp
    obtain ⟨tr, last, h1, _, h3, h4, h5, h6, h7⟩ :=
      runAxes_pairs qs q
        { leakedState xres yres x0 y0 with lastTouch := c0, tstate := TouchState.TOUCHED }
        1 (by simp) rfl rfl (by omega)
    have hloop := eventLoop_axes lb clk (pairsEvents (q :: qs)) _ tr last
      (2 * qs.length + 1) [] (pairsEvents_axis _) h1 h5
      (fun t ht => by rw [h4 t ht]; simp) h3
    rw [List.append_nil] at hloop
    have hdet : last.positiondet = 1 := by rw [h6]; rfl
    have hcur : last.curpos
        = ⟨calibX (Int.tdiv (sumLoop position_t.x last.positions) 60) xres,
           calibY (Int.tdiv (sumLoop position_t.y last.positions) 60) yres⟩ := by
      conv_lhs => rw [h6]
      rfl
    have hsam : last.samples = 0 := by rw [h6]; rfl
    refine ⟨{ last with positiondet := last.positiondet - 1 }, ?_, ?_, hcur,
      by simp [hdet], hsam⟩
    · rw [← hloop]
      simp [eventLoop, handleButton, evPress, handleAxes, leakedState, initState]
    · rw [h7]
      simp [leakedState, initState, Positions.store]
/-- Witness of C18: readings (100, 100) before the press, then 59 samples
(2000, 2000) on an 800 by 480 surface. -/
theorem sample_before_press_leaks_witness :
    ∃ t, (eventLoop 64 (leakedState 800 480 100 100)
            (⟨some evPress, ⟨1, 0⟩⟩ :: inputsOf ⟨1, 0⟩
              (pairsEvents (List.replicate 59 (true, ⟨2000, 2000⟩))))).2
          = LoopResult.returned LoopExit.determined t.curpos t [] ∧
      t.positions.1 = ⟨100, 100⟩ ::
        (List.replicate 59 ((true, ⟨2000, 2000⟩) : Bool × position_t)).map Prod.snd ∧
      t.curpos = ⟨calibX (Int.tdiv (sumLoop position_t.x t.positions) 60) 800,
                  calibY (Int.tdiv (sumLoop position_t.y t.positions) 60) 480⟩ ∧
      t.positiondet = 0 ∧ t.samples = 0 :=
  (sample_before_press_leaks 64 800 480 100 100 ⟨0, 0⟩ ⟨0, 0⟩ ⟨1, 0⟩ ⟨1, 0⟩ [] []
    (List.replicate 59 (true, ⟨2000, 2000⟩)) (by decide)).2.2.2.2.2

/-! ## How an `eventLoop` call returns -/

theorem putPosition_res (s : DfState) (b : Bool) (t : DfState)
    (h : putPosition s = some (b, t)) : t.xres = s.xres ∧ t.yres = s.yres := by
  by_cases hst : s.st = 3
  · by_cases hin : 0 ≤ s.samples ∧ s.samples < POSSAMPLES
    · by_cases h60 : s.samples + 1 = POSSAMPLES
      · simp only [putPosition, hst, hin, h60, and_self, if_true, Option.some.injEq,
          Prod.mk.injEq] at h
        obtain ⟨_, rfl⟩ := h
        exact ⟨rfl, rfl⟩
      · simp only [putPosition, hst, hin, h60, and_self, if_true, if_false, Option.some.injEq,
          Prod.mk.injEq] at h
        obtain ⟨_, rfl⟩ := h
        exact ⟨rfl, rfl⟩
    · simp [putPosition, hst, hin] at h
  · rw [putPosition_idle s hst] at h
    simp only [Option.some.injEq, Prod.mk.injEq] at h
    obtain ⟨_, rfl⟩ := h
    exact ⟨rfl, rfl⟩

theorem handleAxes_res (s : DfState) (e : DFBInputEvent) (b : Bool) (t : DfState)
    (h : handleAxes s e = some (b, t)) : t.xres = s.xres ∧ t.yres = s.yres := by
  by_cases hty : e.type = DFBInputEventType.DIET_AXISMOTION
  · by_cases hx : e.axis = DFBInputDeviceAxisIdentifier.DIAI_X
    · rw [handleAxes_x s e hty hx] at h
      have hres := putPosition_res _ b t h
      exact hres
    · by_cases hy : e.axis = DFBInputDeviceAxisIdentifier.DIAI_Y
      · rw [handleAxes_y s e hty hy] at h
        have hres := putPosition_res _ b t h
        exact hres
      · rw [handleAxes_other_axis s e hty hx hy] at h
        simp only [Option.some.injEq, Prod.mk.injEq] at h
        obtain ⟨_, rfl⟩ := h
        exact ⟨rfl, rfl⟩
  · rw [handleAxes_not_axis s e hty] at h
    simp only [Option.some.injEq, Prod.mk.injEq] at h
    obtain ⟨_, rfl⟩ := h
    exact ⟨rfl, rfl⟩

theorem handleButton_to_released (lb : Nat) (s : DfState) (e : DFBInputEvent)
    (now : timespec) (h1 : s.tstate ≠ TouchState.RELEASED)
    (h2 : (handleButton lb s e now).2.tstate = TouchState.RELEASED) :
    e.type = DFBInputEventType.DIET_BUTTONRELEASE := by
  unfold handleButton at h2
  split at h2
  · simp at h2
  · assumption
  · exact absurd h2 h1

theorem handleButton_press_touched (lb : Nat) (s : DfState) (e : DFBInputEvent)
    (now : timespec) (he : e.type = DFBInputEventType.DIET_BUTTONPRESS) :
    (handleButton lb s e now).2.tstate = TouchState.TOUCHED := by
  simp [handleButton, he]

/-- The last iteration of an `eventLoop` call that returns on an event: the
inputs read before it leave the loop waiting in a state `u`, and the event
`e` handled from `u` makes the loop stop, through the `RELEASED` test or
through the semaphore. -/
theorem eventLoop_last_iteration (lb : Nat) (stream : List Input) :
    ∀ (s : DfState) (why : LoopExit) (p : position_t) (t : DfState) (rest : List Input),
      (eventLoop lb s stream).2 = LoopResult.returned why p t rest →
      why ≠ LoopExit.noEvent →
      ∃ pre e c u b v, stream = pre ++ ⟨some e, c⟩ :: rest ∧
        (eventLoop lb s pre).2 = LoopResult.waiting u ∧
        handleAxes (handleButton lb u e c).2 e = some (b, v) ∧ p = v.curpos ∧
        ((why = LoopExit.released ∧ v.tstate = TouchState.RELEASED ∧ t = v) ∨
         (why = LoopExit.determined ∧ v.tstate ≠ TouchState.RELEASED ∧ 0 < v.positiondet ∧
            t = { v with positiondet := v.positiondet - 1 })) := by
  induction stream with
  | nil =>
    intro s why p t rest h _
    simp [eventLoop] at h
  | cons i rest0 ih =>
    intro s why p t rest h hwhy
    obtain ⟨ev, clk⟩ := i
    cases ev with
    | none =>
      simp only [eventLoop, LoopResult.returned.injEq] at h
      exact absurd h.1.symm hwhy
    | some e =>
      cases hax : handleAxes (handleButton lb s e clk).2 e with
      | none => simp [eventLoop, hax] at h
      | some r =>
        simp only [eventLoop, hax] at h
        by_cases hR : r.2.tstate = TouchState.RELEASED
        · simp only [hR, if_true, LoopResult.returned.injEq] at h
          obtain ⟨h1, h2, h3, h4⟩ := h
          refine ⟨[], e, clk, s, r.1, r.2, by rw [h4]; rfl, rfl, hax, h2.symm,
            Or.inl ⟨h1.symm, hR, h3.symm⟩⟩
        · simp only [hR, if_false] at h
          by_cases hpos : 0 < r.2.positiondet
          · simp only [hpos, if_true, LoopResult.returned.injEq] at h
            obtain ⟨h1, h2, h3, h4⟩ := h
            refine ⟨[], e, clk, s, r.1, r.2, by rw [h4]; rfl, rfl, hax, h2.symm,
              Or.inr ⟨h1.symm, hR, hpos, h3.symm⟩⟩
          · simp only [hpos, if_false] at h
            obtain ⟨pre, e2, c2, u, b, v, g1, g2, g3, g4, g5⟩ := ih r.2 why p t rest h hwhy
            refine ⟨⟨some e, clk⟩ :: pre, e2, c2, u, b, v, by rw [g1]; rfl, ?_, g3, g4, g5⟩
            simp only [eventLoop, hax, hR, hpos, if_false]
            exact g2

/-- The state in which an `eventLoop` call entered with the semaphore at 0
waits for its next event: the semaphore is 0, the calibrated position and the
resolution are those of entry, and once an event has been read the touch
state is not `RELEASED`. -/
theorem eventLoop_waiting_state (lb : Nat) (pre : List Input) :
    ∀ (s u : DfState), (eventLoop lb s pre).2 = LoopResult.waiting u →
      s.positiondet = 0 →
      u.positiondet = 0 ∧ u.curpos = s.curpos ∧ u.xres = s.xres ∧ u.yres = s.yres ∧
      (pre = [] → u = s) ∧ (pre ≠ [] → u.tstate ≠ TouchState.RELEASED) := by
  induction pre with
  | nil =>
    intro s u h hs
    simp only [eventLoop, LoopResult.waiting.injEq] at h
    subst h
    exact ⟨hs, rfl, rfl, rfl, fun _ => rfl, fun hne => absurd rfl hne⟩
  | cons i pre ih =>
    intro s u h hs
    obtain ⟨ev, clk⟩ := i
    cases ev with
    | none => simp [eventLoop] at h
    | some e =>
      cases hax : handleAxes (handleButton lb s e clk).2 e with
      | none => simp [eventLoop, hax] at h
      | some r =>
        simp only [eventLoop, hax] at h
        by_cases hR : r.2.tstate = TouchState.RELEASED
        · simp [hR] at h
        · simp only [hR, if_false] at h
          by_cases hpos : 0 < r.2.positiondet
          · simp [hpos] at h
          · simp only [hpos, if_false] at h
            obtain ⟨_, _, _, _, _, f6, f7, f8, f9⟩ := handleButton_frame lb s e clk
            obtain ⟨_, _, hc⟩ := handleAxes_frame _ e r.1 r.2 hax
            obtain ⟨hx, hy⟩ := handleAxes_res _ e r.1 r.2 hax
            have hr0 : r.2.positiondet = 0 ∧ r.2.curpos = s.curpos := by
              rcases hc with ⟨_, c2, _, _⟩ | ⟨_, c2, c3⟩
              · rw [f7, hs] at c2
                rw [c2] at hpos
                exact absurd (by decide) hpos
              · rw [f7, hs] at c2
                rw [f6] at c3
                exact ⟨c2, c3⟩
            obtain ⟨i1, i2, i3, i4, i5, i6⟩ := ih r.2 u h hr0.1
            refine ⟨i1, i2.trans hr0.2, i3.trans (hx.trans f8), i4.trans (hy.trans f9),
              fun hnil => by simp at hnil, fun _ => ?_⟩
            by_cases hp : pre = []
            · rw [i5 hp]; exact hR
            · exact i6 hp
/-- C11: for every `eventLoop` call entered with the semaphore at 0: when it
returns through the `RELEASED` test, the position returned is the calibrated
position held on entry, also held on return; when it returns because the
semaphore was raised, the semaphore is back at 0 and the position returned
is the one computed from the window `positions` of 60 samples that the last
event read in the call completed (`CompletesWindow` at that event, whose
`handleAxes` call raised the semaphore to 1). -/
theorem eventLoop_returned_position (lb : Nat) (s : DfState) (stream : List Input)
    (hs : s.positiondet = 0) :
    (∀ p t rest,
      (eventLoop lb s stream).2 = LoopResult.returned LoopExit.released p t rest →
      p = s.curpos ∧ t.curpos = s.curpos ∧ t.tstate = TouchState.RELEASED) ∧
    (∀ p t rest,
      (eventLoop lb s stream).2 = LoopResult.returned LoopExit.determined p t rest →
      t.positiondet = 0 ∧ p = t.curpos ∧
      p = ⟨calibX (Int.tdiv (sumLoop position_t.x t.positions) 60) t.xres,
           calibY (Int.tdiv (sumLoop position_t.y t.positions) 60) t.yres⟩ ∧
      ∃ pre e c u, stream = pre ++ ⟨some e, c⟩ :: rest ∧
        (eventLoop lb s pre).2 = LoopResult.waiting u ∧
        CompletesWindow (handleButton lb u e c).2 e ∧
        handleAxes (handleButton lb u e c).2 e = some (true, { t with positiondet := 1 })) := by
  constructor
  · intro p t rest h
    obtain ⟨pre, e, c, u, b, v, _, g2, g3, g4, g5⟩ :=
      eventLoop_last_iteration lb stream s _ p t rest h (by decide)
    obtain ⟨_, w2, _, _, _, _⟩ := eventLoop_waiting_state lb pre s u g2 hs
    obtain ⟨_, _, _, _, _, f6, _, _, _⟩ := handleButton_frame lb u e c
    obtain ⟨a1, _, hc⟩ := handleAxes_frame _ e b v g3
    rcases g5 with ⟨_, k2, k3⟩ | ⟨k1, _⟩
    · subst k3
      have hcur : t.curpos = s.curpos := by
        rcases hc with ⟨c1, _⟩ | ⟨_, _, c3⟩
        · exact absurd (a1.symm.trans k2) c1.1
        · rw [c3, f6, w2]
      exact ⟨g4.trans hcur, hcur, k2⟩
    · exact absurd k1 (by decide)
  · intro p t rest h
    obtain ⟨pre, e, c, u, b, v, g1, g2, g3, g4, g5⟩ :=
      eventLoop_last_iteration lb stream s _ p t rest h (by decide)
    obtain ⟨w1, _, _, _, _, _⟩ := eventLoop_waiting_state lb pre s u g2 hs
    obtain ⟨_, _, _, _, _, _, f7, _, _⟩ := handleButton_frame lb u e c
    obtain ⟨_, _, hc⟩ := handleAxes_frame _ e b v g3
    obtain ⟨hx, hy⟩ := handleAxes_res _ e b v g3
    rcases g5 with ⟨k1, _⟩ | ⟨_, _, k3, k4⟩
    · exact absurd k1 (by decide)
    · rcases hc with ⟨c1, c2, _, c4⟩ | ⟨_, c2, _⟩
      · rw [f7, w1] at c2
        have hv1 : v.positiondet = 1 := by rw [c2]; rfl
        have hb : b = true := by
          obtain ⟨_, _, hty, hax⟩ := c1
          rcases hax with ⟨hax, _⟩ | ⟨hax, _⟩
          · rw [handleAxes_x _ e hty hax] at g3
            exact (putPosition_frame _ b v g3).1
          · rw [handleAxes_y _ e hty hax] at g3
            exact (putPosition_frame _ b v g3).1
        have htv : ({ t with positiondet := 1 } : DfState) = v := by
          rw [k4]
          cases v
          simp only at hv1
          simp [hv1]
        subst k4
        refine ⟨by simp [hv1], g4, ?_, pre, e, c, u, g1, g2, c1, ?_⟩
        · rw [g4, c4, ← hx, ← hy]
        · rw [htv, ← hb]; exact g3
      · rw [f7, w1] at c2
        rw [c2] at k3
        exact absurd k3 (by decide)

/-- Witness of C11: the call that reads one X event in the start-up state
returns through the `RELEASED` test with the position held on entry. -/
theorem eventLoop_returned_position_witness :
    (⟨0, 0⟩ : position_t) = (initState 800 480).curpos ∧
    ({ initState 800 480 with x := 5, st := 1 } : DfState).curpos
      = (initState 800 480).curpos ∧
    ({ initState 800 480 with x := 5, st := 1 } : DfState).tstate = TouchState.RELEASED :=
  (eventLoop_returned_position 64 (initState 800 480) [⟨some (evX 5), ⟨0, 0⟩⟩] rfl).1
    ⟨0, 0⟩ { initState 800 480 with x := 5, st := 1 } [] (by decide)

/-! ## When an `eventLoop` call returns -/

/-- C12 (as amended): an `eventLoop` call entered with the semaphore at 0, on
a supply in which every turn delivers an event, returns only at an event `e`
read in a waiting state `u` such that either the touch state was not
`RELEASED` and `e` is a release event that `handleButton` turns into
`RELEASED` (release transition), or `e` completes a window of 60 samples
(calibration), or `e` is the first event of the call, the call was entered
with the touch state `RELEASED`, `e` is not a button press and the touch
state is still `RELEASED`. -/
theorem eventLoop_terminal (lb : Nat) (s : DfState) (stream : List Input)
    (hs : s.positiondet = 0) (hev : ∀ i ∈ stream, i.ev ≠ none)
    (why : LoopExit) (p : position_t) (t : DfState) (rest : List Input)
    (h : (eventLoop lb s stream).2 = LoopResult.returned why p t rest) :
    ∃ pre e c u, stream = pre ++ ⟨some e, c⟩ :: rest ∧
      (eventLoop lb s pre).2 = LoopResult.waiting u ∧
      ((why = LoopExit.released ∧ u.tstate ≠ TouchState.RELEASED ∧
          e.type = DFBInputEventType.DIET_BUTTONRELEASE ∧
          (handleButton lb u e c).2.tstate = TouchState.RELEASED) ∨
       (why = LoopExit.determined ∧ CompletesWindow (handleButton lb u e c).2 e) ∨
       (why = LoopExit.released ∧ pre = [] ∧ s.tstate = TouchState.RELEASED ∧
          e.type ≠ DFBInputEventType.DIET_BUTTONPRESS ∧
          t.tstate = TouchState.RELEASED)) := by
  have hwhy : why ≠ LoopExit.noEvent := by
    intro hn
    subst hn
    clear hs
    induction stream generalizing s with
    | nil => simp [eventLoop] at h
    | cons i rest0 ih =>
      obtain ⟨ev, clk⟩ := i
      cases ev with
      | none => exact hev ⟨none, clk⟩ (List.mem_cons_self _ _) rfl
      | some e =>
        cases hax : handleAxes (handleButton lb s e clk).2 e with
        | none => simp [eventLoop, hax] at h
        | some r =>
          simp only [eventLoop, hax] at h
          by_cases hR : r.2.tstate = TouchState.RELEASED
          · simp [hR] at h
          · simp only [hR, if_false] at h
            by_cases hpos : 0 < r.2.positiondet
            · simp [hpos] at h
            · simp only [hpos, if_false] at h
              exact ih r.2 (fun i hi => hev i (List.mem_cons_of_mem _ hi)) h
  obtain ⟨pre, e, c, u, b, v, g1, g2, g3, _, g5⟩ :=
    eventLoop_last_iteration lb stream s why p t rest h hwhy
  obtain ⟨w1, _, _, _, w5, w6⟩ := eventLoop_waiting_state lb pre s u g2 hs
  obtain ⟨_, _, _, _, _, _, f7, _, _⟩ := handleButton_frame lb u e c
  obtain ⟨a1, _, hc⟩ := handleAxes_frame _ e b v g3
  refine ⟨pre, e, c, u, g1, g2, ?_⟩
  rcases g5 with ⟨k1, k2, k3⟩ | ⟨k1, _, k3, _⟩
  · have hbR : (handleButton lb u e c).2.tstate = TouchState.RELEASED := a1.symm.trans k2
    by_cases hu : u.tstate = TouchState.RELEASED
    · have hpre : pre = [] := by
        by_contra hne
        exact w6 hne hu
      have hus : u = s := w5 hpre
      refine Or.inr (Or.inr ⟨k1, hpre, by rw [← hus]; exact hu, fun hp => ?_, by rw [k3]; exact k2⟩)
      rw [handleButton_press_touched lb u e c hp] at hbR
      exact absurd hbR (by decide)
    · exact Or.inl ⟨k1, hu, handleButton_to_released lb u e c hu hbR, hbR⟩
  · rcases hc with ⟨c1, _⟩ | ⟨_, c2, _⟩
    · exact Or.inr (Or.inl ⟨k1, c1⟩)
    · rw [f7, w1] at c2
      rw [c2] at k3
      exact absurd k3 (by decide)

/-- Witness of C12: press at time 0, release 150 ms later, on an LP64
target: the call returns at the release event, a release transition. -/
theorem eventLoop_terminal_witness :
    ∃ pre e c u,
      [(⟨some evPress, ⟨0, 0⟩⟩ : Input), ⟨some evRelease, ⟨0, 150000000⟩⟩]
        = pre ++ ⟨some e, c⟩ :: [] ∧
      (eventLoop 64 (initState 800 480) pre).2 = LoopResult.waiting u ∧
      ((LoopExit.released = LoopExit.released ∧ u.tstate ≠ TouchState.RELEASED ∧
          e.type = DFBInputEventType.DIET_BUTTONRELEASE ∧
          (handleButton 64 u e c).2.tstate = TouchState.RELEASED) ∨
       (LoopExit.released = LoopExit.determined ∧
          CompletesWindow (handleButton 64 u e c).2 e) ∨
       (LoopExit.released = LoopExit.released ∧ pre = [] ∧
          (initState 800 480).tstate = TouchState.RELEASED ∧
          e.type ≠ DFBInputEventType.DIET_BUTTONPRESS ∧
          ({ initState 800 480 with tstate := TouchState.RELEASED } : DfState).tstate
            = TouchState.RELEASED)) :=
  eventLoop_terminal 64 (initState 800 480)
    [⟨some evPress, ⟨0, 0⟩⟩, ⟨some evRelease, ⟨0, 150000000⟩⟩] rfl (by decide)
    LoopExit.released ⟨0, 0⟩ { initState 800 480 with tstate := TouchState.RELEASED } []
    (by decide)

/-- Counterexample to C12 as stated: in the start-up state (touch state
`RELEASED`) the call that reads an X axis event returns at once, with a
second event still unread.  The only event handled is not a release event,
the touch state is `RELEASED` before and after, and no window was averaged:
the semaphore, the window length and the calibrated position are as on
entry. -/
theorem eventLoop_returns_while_released :
    eventLoop 64 (initState 800 480)
        [⟨some (evX 2000), ⟨0, 0⟩⟩, ⟨some (evY 2000), ⟨0, 0⟩⟩]
      = ([initState 800 480, { initState 800 480 with x := 2000, st := 1 }],
         LoopResult.returned LoopExit.released ⟨0, 0⟩
          { initState 800 480 with x := 2000, st := 1 } [⟨some (evY 2000), ⟨0, 0⟩⟩]) ∧
    (evX 2000).type ≠ DFBInputEventType.DIET_BUTTONRELEASE ∧
    (initState 800 480).tstate = TouchState.RELEASED ∧
    ({ initState 800 480 with x := 2000, st := 1 } : DfState).tstate = TouchState.RELEASED ∧
    ({ initState 800 480 with x := 2000, st := 1 } : DfState).positiondet = 0 ∧
    ({ initState 800 480 with x := 2000, st := 1 } : DfState).samples = 0 ∧
    ({ initState 800 480 with x := 2000, st := 1 } : DfState).curpos
      = (initState 800 480).curpos := by
  decide

end Dfframe
